import Mathlib

/-!
# The custom-broker example node (`_examples/custom_broker/main.go`)

A shallow embedding of the example program: its configuration, its
authentication middleware, the client lifecycle handlers, the sequential
start-up of `main`, and the concurrent tail of `main` (the HTTP server
goroutine, the signal goroutine of `waitExitSignal`, and the main goroutine)
as an executable step function driven by a schedule.

External calls (the centrifuge library, natsbroker, net/http, os/signal) are
represented by the values they return, supplied by an environment `Env` for
the sequential part and by the scheduled `Action`s for the blocking calls.
-/

namespace CustomBroker

/-! ## Values of the libraries that `main` handles -/

/-- A non-nil Go `error`, identified by its message. -/
abbrev Err := String

/-- A Go pointer: `none` is `nil`, `some a` an address. -/
abbrev Ptr := Option Nat

/-- The fields of `centrifuge.ChannelOptions` that `main` sets; a composite
literal leaves every field it does not name at its zero value. -/
structure ChannelOptions where
  Publish : Bool := false
  JoinLeave : Bool := false
  Presence : Bool := false
  HistorySize : Int := 0
  HistoryLifetime : Int := 0
  HistoryRecover : Bool := false
deriving DecidableEq

/-- Type `centrifuge.ChannelNamespace`: a name and the embedded options. -/
structure ChannelNamespace where
  Name : String
  Options : ChannelOptions
deriving DecidableEq

/-- Type `centrifuge.LogLevel`, an integer code. -/
abbrev LogLevel := Int

/-- A function value stored in `Config.LogHandler`: `handleLog` of main.go, or
some handler the library supplies. -/
inductive LogHandler where
  | handleLog
  | library (id : Nat)
deriving DecidableEq

/-- Type `centrifuge.Config`: the three fields `main` assigns, and the remaining
fields (whose declaration is outside main.go) carried along by name and value. -/
structure Config where
  LogLevel : LogLevel
  LogHandler : Option LogHandler
  Namespaces : List ChannelNamespace
  others : List (String × String)
deriving DecidableEq

/-- Type `natsbroker.Config`. -/
structure NatsConfig where
  Prefix : String
deriving DecidableEq

/-- Type `centrifuge.RedisShardConfig`, with the fields `main` sets. -/
structure RedisShardConfig where
  Host : String
  Port : Int
deriving DecidableEq

/-- Type `centrifuge.RedisEngineConfig`. -/
structure RedisEngineConfig where
  Shards : List RedisShardConfig
deriving DecidableEq

/-- An interface value handed to the node: its dynamic type and its pointer.
`*natsbroker.Broker` and `*centrifuge.RedisEngine` are different types. -/
inductive Component where
  | natsBroker (p : Ptr)
  | redisEngine (p : Ptr)
deriving DecidableEq

/-- The `http.Handler` values `main` builds, as terms. -/
inductive HandlerDesc where
  | websocket (node : Ptr)
  | fileServer (dir : String)
  | authMiddleware (h : HandlerDesc)
deriving DecidableEq

/-- The signals `waitExitSignal` subscribes to. -/
inductive Signal where
  | SIGINT
  | SIGTERM
deriving DecidableEq

/-- A `context.Context` as far as main.go builds one. -/
inductive ShutdownCtx where
  | background
  | withDeadline (t : Nat)
deriving DecidableEq

/-- Whether a context carries a deadline. -/
def ShutdownCtx.hasDeadline : ShutdownCtx → Bool
  | .background => false
  | .withDeadline _ => true

/-! ## Clients and lifecycle events -/

/-- What main.go reads from a `*centrifuge.Client`: `UserID()`, and the name and
protocol of `Transport()`. -/
structure Client where
  userID : String
  transportName : String
  transportProtocol : String
deriving DecidableEq

/-- Type `centrifuge.Disconnect`, printed with `%#v` by the disconnect handler. -/
structure Disconnect where
  Reason : String
  Reconnect : Bool
deriving DecidableEq

structure SubscribeEvent where
  Channel : String
deriving DecidableEq

structure UnsubscribeEvent where
  Channel : String
deriving DecidableEq

structure PublishEvent where
  Channel : String
  Data : String
deriving DecidableEq

structure DisconnectEvent where
  Disconnect : Option Disconnect
deriving DecidableEq

/-- A reply struct of the library, given by the fields a composite literal
sets; the literal `T{}` sets none, which is the zero value. -/
structure SubscribeReply where
  fields : List (String × String) := []
deriving DecidableEq

structure UnsubscribeReply where
  fields : List (String × String) := []
deriving DecidableEq

structure PublishReply where
  fields : List (String × String) := []
deriving DecidableEq

structure DisconnectReply where
  fields : List (String × String) := []
deriving DecidableEq

/-- An argument of `log.Printf`. -/
inductive LogArg where
  | str (s : String)
  | goSyntax (d : Option Disconnect)
deriving DecidableEq

/-- One call of `log.Printf`: the format and its arguments. -/
structure LogLine where
  format : String
  args : List LogArg
deriving DecidableEq

/-- The handler given to `client.On().Subscribe` (main.go lines 77-80). -/
def subscribeHandler (client : Client) (e : SubscribeEvent) : LogLine × SubscribeReply :=
  (⟨"user %s subscribes on %s", [.str client.userID, .str e.Channel]⟩, {})

/-- The handler given to `client.On().Unsubscribe` (lines 82-85). -/
def unsubscribeHandler (client : Client) (e : UnsubscribeEvent) : LogLine × UnsubscribeReply :=
  (⟨"user %s unsubscribed from %s", [.str client.userID, .str e.Channel]⟩, {})

/-- The handler given to `client.On().Publish` (lines 87-90). -/
def publishHandler (client : Client) (e : PublishEvent) : LogLine × PublishReply :=
  (⟨"user %s publishes into channel %s: %s",
    [.str client.userID, .str e.Channel, .str e.Data]⟩, {})

/-- The handler given to `client.On().Disconnect` (lines 92-95). -/
def disconnectHandler (client : Client) (e : DisconnectEvent) : LogLine × DisconnectReply :=
  (⟨"user %s disconnected, disconnect: %#v", [.str client.userID, .goSyntax e.Disconnect]⟩, {})

/-- The handlers a client's event hub holds; `none` is an unset handler. -/
structure ClientEventHub where
  subscribe : Option (SubscribeEvent → LogLine × SubscribeReply) := none
  unsubscribe : Option (UnsubscribeEvent → LogLine × UnsubscribeReply) := none
  publish : Option (PublishEvent → LogLine × PublishReply) := none
  disconnect : Option (DisconnectEvent → LogLine × DisconnectReply) := none

/-- The callback given to `node.On().ClientConnected` (lines 75-99): it sets the
four handlers of the client's hub, then logs the connection. -/
def clientConnected (client : Client) (hub : ClientEventHub) : ClientEventHub × LogLine :=
  let hub := { hub with subscribe := some (subscribeHandler client) }
  let hub := { hub with unsubscribe := some (unsubscribeHandler client) }
  let hub := { hub with publish := some (publishHandler client) }
  let hub := { hub with disconnect := some (disconnectHandler client) }
  (hub, ⟨"user %s connected via %s with protocol: %s",
    [.str client.userID, .str client.transportName, .str client.transportProtocol]⟩)

/-- A lifecycle event of a connected client, as the library dispatches it. -/
inductive ClientEvent where
  | subscribe (e : SubscribeEvent)
  | unsubscribe (e : UnsubscribeEvent)
  | publish (e : PublishEvent)
  | disconnect (e : DisconnectEvent)
deriving DecidableEq

/-- The reply a handler gave, tagged by its kind. -/
inductive Reply where
  | subscribe (r : SubscribeReply)
  | unsubscribe (r : UnsubscribeReply)
  | publish (r : PublishReply)
  | disconnect (r : DisconnectReply)
deriving DecidableEq

/-- Dispatch of one event to the handler the hub holds for it. -/
def ClientEventHub.dispatch (hub : ClientEventHub) : ClientEvent → Option (LogLine × Reply)
  | .subscribe e => (hub.subscribe).map fun h => ((h e).1, .subscribe (h e).2)
  | .unsubscribe e => (hub.unsubscribe).map fun h => ((h e).1, .unsubscribe (h e).2)
  | .publish e => (hub.publish).map fun h => ((h e).1, .publish (h e).2)
  | .disconnect e => (hub.disconnect).map fun h => ((h e).1, .disconnect (h e).2)

/-! ## authMiddleware -/

/-- Type `centrifuge.Credentials`; `Info` is the byte slice of an ASCII literal. -/
structure Credentials where
  UserID : String
  Info : String
deriving DecidableEq

/-- A value stored in a request context. -/
inductive CtxValue where
  | credentials (c : Credentials)
  | other (v : String)
deriving DecidableEq

/-- A `context.Context` as a chain of key/value pairs, newest first. -/
abbrev Context := List (String × CtxValue)

/-- Method `Context.Value`: the newest value stored under the key. -/
def Context.value (ctx : Context) (key : String) : Option CtxValue :=
  (ctx.find? fun kv => kv.1 == key).map Prod.snd

/-- The key under which the library stores credentials. -/
def credentialsContextKey : String := "centrifuge.credentials"

/-- Modelled from the spec: `centrifuge.SetCredentials` is declared outside
main.go ("authentication/credential injection"); it returns the context
extended with the credentials under the library's key. -/
def SetCredentials (ctx : Context) (creds : Credentials) : Context :=
  (credentialsContextKey, .credentials creds) :: ctx

/-- The credentials a context carries, if any. -/
def GetCredentials (ctx : Context) : Option Credentials :=
  match ctx.value credentialsContextKey with
  | some (.credentials c) => some c
  | _ => none

/-- An `*http.Request`: its context and everything else in it. -/
structure Request where
  ctx : Context
  method : String
  url : String
  header : List (String × String)
  body : String
deriving DecidableEq

/-- Method `Request.WithContext`: a copy of the request with the context replaced. -/
def Request.WithContext (r : Request) (ctx : Context) : Request :=
  { r with ctx := ctx }

/-- An `http.Handler` over a response-writer state `W`: `ServeHTTP(w, r)`. -/
abbrev Handler (W : Type) := W → Request → W

/-- Function `authMiddleware` (main.go lines 27-38). -/
def authMiddleware {W : Type} (h : Handler W) : Handler W :=
  fun w r =>
    let ctx := r.ctx
    let ctx := SetCredentials ctx { UserID := "42", Info := "\x7b\"name\": \"Alexander\"\x7d" }
    let r := r.WithContext ctx
    h w r

/-- The meaning of a handler term, given the library handlers. -/
def HandlerDesc.serve {W : Type} (websocket : Ptr → Handler W) (fileServer : String → Handler W) :
    HandlerDesc → Handler W
  | .websocket n => websocket n
  | .fileServer d => fileServer d
  | .authMiddleware h => CustomBroker.authMiddleware (h.serve websocket fileServer)

/-! ## The sequential start-up of `main` (lines 53-137) -/

/-- What the process does that can be observed, in the order it happens. A call
that returns at once is one event carrying its result; the two blocking calls
(`http.ListenAndServe`, `Node.Shutdown`) have a call event and a return event. -/
inductive Event where
  | flagParse
  | centrifugeNew (cfg : Config) (node : Ptr) (err : Option Err)
  | onClientConnected (node : Ptr)
  | natsbrokerNew (node : Ptr) (cfg : NatsConfig) (broker : Ptr) (err : Option Err)
  | newRedisEngine (node : Ptr) (cfg : RedisEngineConfig) (engine : Ptr) (err : Option Err)
  | setBroker (node : Ptr) (b : Component)
  | setHistoryManager (node : Ptr) (m : Component)
  | setPresenceManager (node : Ptr) (m : Component)
  | nodeRun (node : Ptr) (err : Option Err)
  | httpHandle (pattern : String) (h : HandlerDesc)
  | logFatal (err : Err)
  | listenAndServe (addr : String)
  | listenAndServeReturned (err : Option Err)
  | signalNotify (sigs : List Signal)
  | signalKilled (sg : Signal)
  | signalDelivered (sg : Signal)
  | signalDropped (sg : Signal)
  | sigsReceived (sg : Signal)
  | shutdownCalled (node : Ptr) (ctx : ShutdownCtx)
  | shutdownReturned (err : Option Err)
  | doneSent
  | waitExitSignalReturned
  | logPrintln (line : String)
  | logPrintf (line : LogLine)
  | handlerReplied (client : Client) (r : Reply)
deriving DecidableEq

/-- The results of the external calls of the sequential part of `main`, the two
library constants it reads, and the value of `*port` once `flag.Parse` has
returned. Every external call is taken to return: a panic or an exit inside a
library call is not represented. -/
structure Env where
  DefaultConfig : Config
  LogLevelDebug : LogLevel
  port : Int
  New : Config → Ptr × Option Err
  natsbrokerNew : Ptr → NatsConfig → Ptr × Option Err
  NewRedisEngine : Ptr → RedisEngineConfig → Ptr × Option Err
  Run : Ptr → Option Err

/-- How the sequential part ends. -/
inductive Outcome where
  | fatal (err : Err)
  | serving
deriving DecidableEq

/-- The sequential part of a run: its events, the final values of the local
variables `cfg` and `node` and of `*port`, and how it ended. -/
structure Startup where
  trace : List Event
  cfg : Config
  node : Ptr
  port : Int
  outcome : Outcome

/-- The config `main` builds (lines 55-71). -/
def mainConfig (env : Env) : Config :=
  let cfg := env.DefaultConfig
  let cfg := { cfg with LogLevel := env.LogLevelDebug }
  let cfg := { cfg with LogHandler := some .handleLog }
  let cfg := { cfg with Namespaces := [
    { Name := "chat"
      Options := {
        Publish := true
        JoinLeave := true
        Presence := true
        HistoryLifetime := 60
        HistorySize := 1000
        HistoryRecover := true } } ] }
  cfg

/-- Function `main`, lines 53-137: everything before the first goroutine starts. -/
def mainStartup (env : Env) : Startup :=
  let tr := [Event.flagParse]
  let cfg := mainConfig env
  let newResult := env.New cfg
  let node := newResult.1
  let tr := tr ++ [.centrifugeNew cfg node newResult.2]
  let tr := tr ++ [.onClientConnected node]
  let natsCfg : NatsConfig := { Prefix := "centrifuge-nats-engine-example" }
  let brokerResult := env.natsbrokerNew node natsCfg
  let broker := brokerResult.1
  let tr := tr ++ [.natsbrokerNew node natsCfg broker brokerResult.2]
  match brokerResult.2 with
  | some e => ⟨tr ++ [.logFatal e], cfg, node, env.port, .fatal e⟩
  | none =>
    let tr := tr ++ [.setBroker node (.natsBroker broker)]
    let redisCfg : RedisEngineConfig := { Shards := [{ Host := "localhost", Port := 6379 }] }
    let engineResult := env.NewRedisEngine node redisCfg
    let engine := engineResult.1
    let tr := tr ++ [.newRedisEngine node redisCfg engine engineResult.2]
    match engineResult.2 with
    | some e => ⟨tr ++ [.logFatal e], cfg, node, env.port, .fatal e⟩
    | none =>
      let tr := tr ++ [.setHistoryManager node (.redisEngine engine)]
      let tr := tr ++ [.setPresenceManager node (.redisEngine engine)]
      let err := env.Run node
      let tr := tr ++ [.nodeRun node err]
      match err with
      | some e => ⟨tr ++ [.logFatal e], cfg, node, env.port, .fatal e⟩
      | none =>
        let tr := tr ++ [.httpHandle "/connection/websocket" (.authMiddleware (.websocket node))]
        let tr := tr ++ [.httpHandle "/" (.fileServer "./")]
        ⟨tr, cfg, node, env.port, .serving⟩

/-! ## The concurrent tail of `main` (lines 139-146) and `waitExitSignal` -/

/-- Where the main goroutine stands, by the line it executes next; `inFatal`
is inside a `log.Fatal` of the sequential part, `returned` past line 146. -/
inductive MainPc where
  | L139
  | L43
  | L44
  | L49
  | L146
  | L147
  | returned
  | inFatal
deriving DecidableEq

/-- Where the goroutine of lines 139-143 stands. -/
inductive SrvPc where
  | notStarted
  | L140
  | inListenAndServe
  | returned (err : Option Err)
  | ended
deriving DecidableEq

/-- Where the goroutine of lines 44-48 stands. -/
inductive SigPc where
  | notStarted
  | L45
  | L46
  | inShutdown
  | L47
  | ended
deriving DecidableEq

/-- How the process ended. -/
inductive Exit where
  | fatal
  | killed (sg : Signal)
  | returned
deriving DecidableEq

/-- The state of the process. `sigs` and `done` are the two channels of
`waitExitSignal`, each of capacity 1, as the list of buffered values. -/
structure Sys where
  trace : List Event
  node : Ptr
  port : Int
  mainPc : MainPc
  srv : SrvPc
  sig : SigPc
  notified : Bool
  sigs : List Signal
  done : List Bool
  hubs : List (Client × ClientEventHub)
  exit : Option Exit

/-- What happens next: one of the three goroutines runs its next statement, a
blocking call returns, the runtime gets a signal, or the library invokes a
callback of main.go. -/
inductive Action where
  | main
  | server
  | sigG
  | listenReturns (err : Option Err)
  | shutdownReturns (err : Option Err)
  | signal (sg : Signal)
  | connect (client : Client)
  | clientEvent (client : Client) (ev : ClientEvent)
deriving DecidableEq

/-- Appends an event to the trace. -/
def Sys.emit (s : Sys) (e : Event) : Sys :=
  { s with trace := s.trace ++ [e] }

/-- The next statement of the main goroutine. At line 49 it waits for `done`. -/
def stepMain (s : Sys) : Sys :=
  match s.mainPc with
  | .L139 => { s with mainPc := .L43, srv := .L140 }
  | .L43 => { s.emit (.signalNotify [.SIGINT, .SIGTERM]) with mainPc := .L44, notified := true }
  | .L44 => { s with mainPc := .L49, sig := .L45 }
  | .L49 =>
    match s.done with
    | [] => s
    | _ :: rest => { s.emit .waitExitSignalReturned with mainPc := .L146, done := rest }
  | .L146 => { s.emit (.logPrintln "bye!") with mainPc := .L147 }
  | .L147 => { s with mainPc := .returned, exit := some .returned }
  | .returned => s
  | .inFatal => s

/-- The next statement of the goroutine of lines 139-143. -/
def stepServer (s : Sys) : Sys :=
  match s.srv with
  | .notStarted => s
  | .L140 => { s.emit (.listenAndServe (":" ++ toString s.port)) with srv := .inListenAndServe }
  | .inListenAndServe => s
  | .returned (some e) => { s.emit (.logFatal e) with exit := some .fatal }
  | .returned none => { s with srv := .ended }
  | .ended => s

/-- The next statement of the goroutine of lines 44-48. At line 45 it waits for
a value in `sigs`; at line 47 it waits for room in `done`. -/
def stepSig (s : Sys) : Sys :=
  match s.sig with
  | .notStarted => s
  | .L45 =>
    match s.sigs with
    | [] => s
    | sg :: rest => { s.emit (.sigsReceived sg) with sig := .L46, sigs := rest }
  | .L46 => { s.emit (.shutdownCalled s.node .background) with sig := .inShutdown }
  | .inShutdown => s
  | .L47 =>
    if s.done.length < 1 then { s.emit .doneSent with sig := .ended, done := s.done ++ [true] }
    else s
  | .ended => s

/-- The runtime gets SIGINT or SIGTERM: before `signal.Notify` the default
disposition ends the process; after it the signal is sent to `sigs` without
blocking, so it is dropped when the buffer is full. -/
def stepSignal (s : Sys) (sg : Signal) : Sys :=
  if s.notified then
    if s.sigs.length < 1 then { s.emit (.signalDelivered sg) with sigs := s.sigs ++ [sg] }
    else s.emit (.signalDropped sg)
  else { s.emit (.signalKilled sg) with exit := some (.killed sg) }

/-- The library runs the `ClientConnected` callback for a new client; this
needs the HTTP server to be serving. -/
def stepConnect (s : Sys) (client : Client) : Sys :=
  if s.srv = .inListenAndServe then
    let r := clientConnected client {}
    { s.emit (.logPrintf r.2) with hubs := (client, r.1) :: s.hubs }
  else s

/-- The library dispatches a lifecycle event to the handler the client's hub
holds for it. -/
def stepClientEvent (s : Sys) (client : Client) (ev : ClientEvent) : Sys :=
  match (s.hubs.find? fun ch => ch.1 == client).bind fun ch => ch.2.dispatch ev with
  | none => s
  | some (line, reply) => (s.emit (.logPrintf line)).emit (.handlerReplied client reply)

/-- One step of the process; nothing happens once it has ended. -/
def step (s : Sys) (a : Action) : Sys :=
  if s.exit.isSome then s else
  match a with
  | .main => stepMain s
  | .server => stepServer s
  | .sigG => stepSig s
  | .listenReturns err =>
    if s.srv = .inListenAndServe then
      { s.emit (.listenAndServeReturned err) with srv := .returned err }
    else s
  | .shutdownReturns err =>
    if s.sig = .inShutdown then { s.emit (.shutdownReturned err) with sig := .L47 } else s
  | .signal sg => stepSignal s sg
  | .connect client => stepConnect s client
  | .clientEvent client ev => stepClientEvent s client ev

/-- The state when the sequential part has ended. -/
def afterStartup (st : Startup) : Sys :=
  match st.outcome with
  | .fatal _ =>
    { trace := st.trace, node := st.node, port := st.port, mainPc := .inFatal, srv := .notStarted,
      sig := .notStarted, notified := false, sigs := [], done := [], hubs := [],
      exit := some .fatal }
  | .serving =>
    { trace := st.trace, node := st.node, port := st.port, mainPc := .L139, srv := .notStarted,
      sig := .notStarted, notified := false, sigs := [], done := [], hubs := [],
      exit := none }

/-- Runs a schedule from a state. -/
def run (s : Sys) (sched : List Action) : Sys :=
  sched.foldl step s

/-- A run of `main`: the sequential part, then the schedule. -/
def exec (env : Env) (sched : List Action) : Sys :=
  run (afterStartup (mainStartup env)) sched

/-! ## Names for the values and events of a run, used to state the properties -/

/-- The node `centrifuge.New` returned (line 73). -/
def Env.node (env : Env) : Ptr := (env.New (mainConfig env)).1

/-- The error `centrifuge.New` returned, which line 73 assigns to `_`. -/
def Env.newErr (env : Env) : Option Err := (env.New (mainConfig env)).2

/-- The argument of `natsbroker.New` (lines 101-103). -/
def natsConfig : NatsConfig := { Prefix := "centrifuge-nats-engine-example" }

/-- The argument of `centrifuge.NewRedisEngine` (lines 111-118). -/
def redisConfig : RedisEngineConfig := { Shards := [{ Host := "localhost", Port := 6379 }] }

/-- The broker `natsbroker.New` returned (line 101). -/
def Env.broker (env : Env) : Ptr := (env.natsbrokerNew env.node natsConfig).1

/-- The error `natsbroker.New` returned. -/
def Env.brokerErr (env : Env) : Option Err := (env.natsbrokerNew env.node natsConfig).2

/-- The engine `centrifuge.NewRedisEngine` returned (line 111). -/
def Env.engine (env : Env) : Ptr := (env.NewRedisEngine env.node redisConfig).1

/-- The error `centrifuge.NewRedisEngine` returned. -/
def Env.engineErr (env : Env) : Option Err := (env.NewRedisEngine env.node redisConfig).2

/-- The events of lines 53-103, up to the return of `natsbroker.New`. -/
def Env.eventsToBroker (env : Env) : List Event :=
  [.flagParse, .centrifugeNew (mainConfig env) env.node env.newErr, .onClientConnected env.node,
   .natsbrokerNew env.node natsConfig env.broker env.brokerErr]

/-- The events of lines 108-118, up to the return of `centrifuge.NewRedisEngine`. -/
def Env.eventsToEngine (env : Env) : List Event :=
  [.setBroker env.node (.natsBroker env.broker),
   .newRedisEngine env.node redisConfig env.engine env.engineErr]

/-- The events of lines 122-132, up to the return of `node.Run`. -/
def Env.eventsToRun (env : Env) : List Event :=
  [.setHistoryManager env.node (.redisEngine env.engine),
   .setPresenceManager env.node (.redisEngine env.engine),
   .nodeRun env.node (env.Run env.node)]

/-- The events of lines 136-137. -/
def Env.eventsToServe (env : Env) : List Event :=
  [.httpHandle "/connection/websocket" (.authMiddleware (.websocket env.node)),
   .httpHandle "/" (.fileServer "./")]

/-- Events of the sequential part of `main` (lines 53-137) that no goroutine
of the concurrent tail produces. -/
def Event.isStartup : Event → Bool
  | .flagParse => true
  | .centrifugeNew _ _ _ => true
  | .onClientConnected _ => true
  | .natsbrokerNew _ _ _ _ => true
  | .newRedisEngine _ _ _ _ => true
  | .setBroker _ _ => true
  | .setHistoryManager _ _ => true
  | .setPresenceManager _ _ => true
  | .nodeRun _ _ => true
  | .httpHandle _ _ => true
  | _ => false

/-- The error an external call returned, for the four calls whose error `main`
checks. -/
def Event.failure : Event → Option Err
  | .natsbrokerNew _ _ _ err => err
  | .newRedisEngine _ _ _ err => err
  | .nodeRun _ err => err
  | .listenAndServeReturned err => err
  | _ => none

/-- The error returned by the broker construction or the store construction. -/
def Event.initFailure : Event → Option Err
  | .natsbrokerNew _ _ _ err => err
  | .newRedisEngine _ _ _ err => err
  | _ => none

/-- The result of `http.ListenAndServe`, for its return event. -/
def Event.listenResult : Event → Option (Option Err)
  | .listenAndServeReturned err => some err
  | _ => none

/-- The argument of `log.Fatal`, for its event. -/
def Event.fatalErr : Event → Option Err
  | .logFatal e => some e
  | _ => none

/-- The results of `http.ListenAndServe` the goroutine of lines 139-143 has
seen, by where it stands. -/
def srvResults : SrvPc → List (Option Err)
  | .returned err => [err]
  | .ended => [none]
  | _ => []

/-- The steps of the shutdown sequence, without the signal received and the
value `Shutdown` returned. -/
inductive Phase where
  | received
  | called (node : Ptr) (ctx : ShutdownCtx)
  | returned
  | doneSent
  | waitReturned
  | printed (line : String)
deriving DecidableEq

/-- The step of the shutdown sequence an event is, if it is one. -/
def Event.phase : Event → Option Phase
  | .sigsReceived _ => some .received
  | .shutdownCalled node ctx => some (.called node ctx)
  | .shutdownReturned _ => some .returned
  | .doneSent => some .doneSent
  | .waitExitSignalReturned => some .waitReturned
  | .logPrintln line => some (.printed line)
  | _ => none

/-- The shutdown sequence of `waitExitSignal` and the end of `main`, in order. -/
def lifecyclePhases (node : Ptr) : List Phase :=
  [.received, .called node .background, .returned, .doneSent, .waitReturned, .printed "bye!"]

/-- How many steps of the shutdown sequence have been taken, by where the
signal goroutine and the main goroutine stand. -/
def progress (sig : SigPc) (mainPc : MainPc) : Nat :=
  match mainPc with
  | .L146 => 5
  | .L147 => 6
  | .returned => 6
  | _ =>
    match sig with
    | .notStarted => 0
    | .L45 => 0
    | .L46 => 1
    | .inShutdown => 2
    | .L47 => 3
    | .ended => 4

/-- Scanning the trace from its start, an event satisfying `p` is met before
any event satisfying `q` (or none of the two occurs). -/
def precedes (p q : Event → Bool) : List Event → Bool
  | [] => true
  | e :: t => if q e then false else if p e then true else precedes p q t

/-- An action with the value `Shutdown` returns replaced by `nil`. -/
def Action.forgetResult : Action → Action
  | .shutdownReturns _ => .shutdownReturns none
  | a => a

/-- An event with the value `Shutdown` returned replaced by `nil`. -/
def Event.forgetResult : Event → Event
  | .shutdownReturned _ => .shutdownReturned none
  | e => e

/-- The events that set the broker, the history manager or the presence manager. -/
def Event.isSetter : Event → Bool
  | .setBroker _ _ => true
  | .setHistoryManager _ _ => true
  | .setPresenceManager _ _ => true
  | _ => false

/-- The calls of `centrifuge.New`. -/
def Event.isCentrifugeNew : Event → Bool
  | .centrifugeNew _ _ _ => true
  | _ => false

/-- How the three goroutines and the trace hang together in every state. -/
structure Inv (s : Sys) : Prop where
  srv_results : s.trace.filterMap Event.listenResult = srvResults s.srv
  srv_start : s.mainPc = .L139 ∨ s.mainPc = .inFatal → s.srv = .notStarted
  no_fatal : s.exit ≠ some .fatal → s.trace.filterMap Event.fatalErr = []
  fatal : s.exit = some .fatal →
    ∃ e, s.trace.getLast? = some (.logFatal e) ∧ s.trace.filterMap Event.fatalErr = [e] ∧
      (∃ ev ∈ s.trace, ev.failure = some e) ∧ (∀ x, s.srv = .returned (some x) → x = e)
  phases : s.trace.filterMap Event.phase = (lifecyclePhases s.node).take (progress s.sig s.mainPc)
  main_sig : s.mainPc = .L139 ∨ s.mainPc = .L43 ∨ s.mainPc = .L44 ∨ s.mainPc = .inFatal →
    s.sig = .notStarted
  main_late : s.mainPc = .L146 ∨ s.mainPc = .L147 ∨ s.mainPc = .returned →
    s.sig = .ended ∧ s.done = []
  done_buf : s.mainPc = .L139 ∨ s.mainPc = .L43 ∨ s.mainPc = .L44 ∨ s.mainPc = .L49 →
    s.done = if s.sig = .ended then [true] else []
  sigs_delivered : ∀ sg ∈ s.sigs, Event.signalDelivered sg ∈ s.trace
  recv_after : ∀ sg, precedes (· == .signalDelivered sg) (· == .sigsReceived sg) s.trace = true


/-! ## Concrete environments and schedules -/

/-- A library default config: log level 0, no handler, no namespaces. -/
def sampleDefaultConfig : Config :=
  { LogLevel := 0, LogHandler := none, Namespaces := [], others := [("Name", "centrifuge")] }

/-- An environment in which every call of the sequential part succeeds. -/
def envOk : Env where
  DefaultConfig := sampleDefaultConfig
  LogLevelDebug := 1
  port := 8000
  New := fun _ => (some 1, none)
  natsbrokerNew := fun _ _ => (some 2, none)
  NewRedisEngine := fun _ _ => (some 3, none)
  Run := fun _ => none

/-- An environment in which only `node.Run` fails. -/
def envRunFails : Env :=
  { envOk with Run := fun _ => some "run: broker unreachable" }

/-- A schedule in which the server starts, a SIGINT arrives, the node shuts
down and `main` returns. -/
def schedShutdown : List Action :=
  [.main, .server, .main, .main, .signal .SIGINT, .sigG, .sigG, .shutdownReturns none, .sigG,
   .main, .main, .main]

/-- A schedule in which `http.ListenAndServe` fails to bind and the goroutine
gets to its `log.Fatal`. -/
def schedListenFails : List Action :=
  [.main, .server, .listenReturns (some "listen tcp :8000: bind: address already in use"),
   .server]

/-! ## The history manager attached at line 122

`node.SetHistoryManager(engine)` attaches the Redis engine of the library; its
code is not part of main.go. The History Log below follows section 4.2 of the
specification. -/

/-- Modelled from the spec: the history part of the resolved `ChannelOptions`
(section 3: historySize, historyLifetimeSeconds, recoveryEnabled), which the
Redis engine behind `SetHistoryManager` consults and main.go does not declare. -/
structure HistoryPolicy where
  historySize : Nat
  historyLifetimeSeconds : Nat
  recoveryEnabled : Bool
deriving DecidableEq

/-- Modelled from the spec: the history policy a namespace of main.go's config
gives its channels; the resolution of options is missing from main.go. -/
def ChannelOptions.historyPolicy (o : ChannelOptions) : HistoryPolicy :=
  { historySize := o.HistorySize.toNat
    historyLifetimeSeconds := o.HistoryLifetime.toNat
    recoveryEnabled := o.HistoryRecover }

/-- Modelled from the spec: history is enabled for a channel when both its size
and its lifetime are positive (section 9, "recovery requires history"); the
library check is missing from main.go. -/
def HistoryPolicy.historyEnabled (p : HistoryPolicy) : Bool :=
  decide (0 < p.historySize) && decide (0 < p.historyLifetimeSeconds)

/-- Modelled from the spec: a `HistoryEntry` of section 3, the retained
publication (sequence number, payload) and its insertion time; the engine's
entry type is missing from main.go. -/
structure HistoryEntry where
  seq : Nat
  payload : String
  insertedAt : Nat
deriving DecidableEq

/-- Modelled from the spec: the History Log of one channel, which is the last
sequence number assigned (never reset by eviction) and the retained entries,
oldest first; the engine's store is missing from main.go. -/
structure ChannelLog where
  top : Nat
  entries : List HistoryEntry
deriving DecidableEq

/-- Modelled from the spec: eviction by count of section 4.2, which keeps the
newest `historySize` entries and so removes from the old end only; the engine
code is missing from main.go. -/
def evictSize (size : Nat) (entries : List HistoryEntry) : List HistoryEntry :=
  entries.drop (entries.length - size)

/-- Modelled from the spec: eviction by age of section 4.2, which removes from
the old end the entries older than `historyLifetimeSeconds` at time `now`; the
engine code is missing from main.go. -/
def evictAge (lifetime now : Nat) (entries : List HistoryEntry) : List HistoryEntry :=
  entries.dropWhile fun e => decide (e.insertedAt + lifetime < now)

/-- Modelled from the spec: `Append` of section 4.2 on one channel. It assigns
the next sequence number (one more than the last assigned), stores the entry,
then evicts by size first and by age second; the engine code is missing from
main.go. -/
def ChannelLog.append (p : HistoryPolicy) (l : ChannelLog) (payload : String) (now : Nat) :
    ChannelLog × Nat :=
  let seq := l.top + 1
  let entries := l.entries ++ [{ seq := seq, payload := payload, insertedAt := now }]
  let entries := evictSize p.historySize entries
  let entries := evictAge p.historyLifetimeSeconds now entries
  ({ top := seq, entries := entries }, seq)

/-- Modelled from the spec: `Recover` of section 4.2 on one channel. It returns
the retained entries with a sequence number above `since`, in ascending order;
`recovered` is false when history is disabled, when `since` is older than the
oldest retained entry so that the gap cannot be closed, and (section 8,
`Recover(channel, k+100)`) when `since` is beyond the last sequence number
assigned; the engine code is missing from main.go. -/
def ChannelLog.recover (p : HistoryPolicy) (l : ChannelLog) (since : Nat) :
    List HistoryEntry × Bool :=
  let entries := l.entries.filter fun e => decide (since < e.seq)
  let gapClosed :=
    match l.entries.head? with
    | some oldest => decide (oldest.seq ≤ since + 1)
    | none => decide (l.top ≤ since)
  (entries, p.historyEnabled && gapClosed && decide (since ≤ l.top))

/-- Modelled from the spec: the History Log of all channels (the shared store
of section 3); the engine's store is missing from main.go. -/
abbrev HistoryLog := String → ChannelLog

/-- Modelled from the spec: the History Log before any append, where no channel
has a sequence number assigned; the engine's store is missing from main.go. -/
def HistoryLog.empty : HistoryLog := fun _ => { top := 0, entries := [] }

/-- Modelled from the spec: one `Append(channel, payload)` request as it reaches
the store at time `now`; `stored = false` is the store being unreachable
(section 7, `TransportError`), in which case the append fails; the engine code
is missing from main.go. -/
structure AppendRequest where
  channel : String
  payload : String
  now : Nat
  stored : Bool
deriving DecidableEq

/-- Modelled from the spec: `Append(channel, payload)` of section 4.2 on the
History Log, atomic per channel; a failed append assigns no sequence number and
leaves the log as it was. The engine code is missing from main.go. -/
def HistoryLog.Append (policy : String → HistoryPolicy) (log : HistoryLog) (r : AppendRequest) :
    HistoryLog × Option Nat :=
  if r.stored then
    let res := (log r.channel).append (policy r.channel) r.payload r.now
    (fun c => if c = r.channel then res.1 else log c, some res.2)
  else (log, none)

/-- Modelled from the spec: `Recover(channel, sinceSequence)` of section 4.2 on
the History Log; the engine code is missing from main.go. -/
def HistoryLog.Recover (policy : String → HistoryPolicy) (log : HistoryLog) (channel : String)
    (since : Nat) : List HistoryEntry × Bool :=
  (log channel).recover (policy channel) since

/-- Modelled from the spec: a sequence of appends in the order in which the
store serialises them (section 5: one exclusive section per channel), with the
channel and the result of each; the engine code is missing from main.go. -/
def HistoryLog.appendAll (policy : String → HistoryPolicy) :
    HistoryLog → List AppendRequest → HistoryLog × List (String × Option Nat)
  | log, [] => (log, [])
  | log, r :: rest =>
    let res := log.Append policy r
    let tail := HistoryLog.appendAll policy res.1 rest
    (tail.1, (r.channel, res.2) :: tail.2)

/-- The sequence numbers the successful appends to a channel were given, in order. -/
def seqsOf (channel : String) (results : List (String × Option Nat)) : List Nat :=
  results.filterMap fun r => if r.1 = channel then r.2 else none

/-- The successful appends to a channel among the requests. -/
def requestsOf (channel : String) (reqs : List AppendRequest) : List AppendRequest :=
  reqs.filter fun r => decide (r.channel = channel) && r.stored

/-- The policy of the "chat" namespace of main.go's config, for every channel. -/
def chatPolicy (env : Env) : String → HistoryPolicy :=
  fun _ =>
    match (mainConfig env).Namespaces.head? with
    | some ns => ns.Options.historyPolicy
    | none => { historySize := 0, historyLifetimeSeconds := 0, recoveryEnabled := false }

/-- The policy of the end-to-end scenario of section 8: size 3, lifetime 60 s,
recovery enabled. -/
def scenarioPolicy : String → HistoryPolicy :=
  fun _ => { historySize := 3, historyLifetimeSeconds := 60, recoveryEnabled := true }

/-- The four publications of the scenario, all at time 0. -/
def scenarioRequests : List AppendRequest :=
  [⟨"chat:room", "a", 0, true⟩, ⟨"chat:room", "b", 0, true⟩, ⟨"chat:room", "c", 0, true⟩,
   ⟨"chat:room", "d", 0, true⟩]

/-- The sequence number and payload of a retained entry. -/
def HistoryEntry.key (e : HistoryEntry) : Nat × String := (e.seq, e.payload)

/-- A channel log against the list of all publications ever appended to the
channel: the last sequence number is their count, they are numbered from 1,
and the retained entries are a suffix of them. -/
structure ChannelLog.Tracks (l : ChannelLog) (pubs : List (Nat × String)) : Prop where
  top_eq : l.top = pubs.length
  numbered : pubs.map Prod.fst = List.range' 1 pubs.length
  retained : l.entries.map HistoryEntry.key <:+ pubs

/-- Modelled from the spec: the recovery step of `Subscribe` in section 4.5.
Node Core calls `Recover` only when the client gives a last known sequence
above 0 and recovery is enabled for the channel; otherwise the subscription is
fresh. The node code is missing from main.go. -/
def subscribeRecover (policy : String → HistoryPolicy) (log : HistoryLog) (channel : String)
    (lastKnownSequence : Nat) : Option (List HistoryEntry × Bool) :=
  if 0 < lastKnownSequence ∧ (policy channel).recoveryEnabled = true then
    some (log.Recover policy channel lastKnownSequence)
  else none

/-! ## Lemmas on the sequential part and on single steps -/

/-- The four ways the sequential part can end, with the trace of each. -/
theorem mainStartup_cases (env : Env) :
    (∃ e, env.brokerErr = some e ∧
      (mainStartup env).trace = env.eventsToBroker ++ [.logFatal e] ∧
      (mainStartup env).outcome = .fatal e) ∨
    (∃ e, env.brokerErr = none ∧ env.engineErr = some e ∧
      (mainStartup env).trace = env.eventsToBroker ++ env.eventsToEngine ++ [.logFatal e] ∧
      (mainStartup env).outcome = .fatal e) ∨
    (∃ e, env.brokerErr = none ∧ env.engineErr = none ∧ env.Run env.node = some e ∧
      (mainStartup env).trace =
        env.eventsToBroker ++ env.eventsToEngine ++ env.eventsToRun ++ [.logFatal e] ∧
      (mainStartup env).outcome = .fatal e) ∨
    (env.brokerErr = none ∧ env.engineErr = none ∧ env.Run env.node = none ∧
      (mainStartup env).trace =
        env.eventsToBroker ++ env.eventsToEngine ++ env.eventsToRun ++ env.eventsToServe ∧
      (mainStartup env).outcome = .serving) := by
  cases hb : env.brokerErr with
  | some e =>
    left
    refine ⟨e, rfl, ?_, ?_⟩ <;>
      simp only [Env.brokerErr, Env.node, natsConfig] at hb <;>
      simp [mainStartup, hb, Env.eventsToBroker, Env.node, Env.newErr, Env.broker, Env.brokerErr,
        natsConfig]
  | none =>
    right
    cases hg : env.engineErr with
    | some e =>
      left
      refine ⟨e, rfl, rfl, ?_, ?_⟩ <;>
        simp only [Env.brokerErr, Env.engineErr, Env.node, natsConfig, redisConfig] at hb hg <;>
        simp [mainStartup, hb, hg, Env.eventsToBroker, Env.eventsToEngine, Env.node, Env.newErr,
          Env.broker, Env.brokerErr, Env.engine, Env.engineErr, natsConfig, redisConfig]
    | none =>
      right
      cases hr : env.Run env.node with
      | some e =>
        left
        refine ⟨e, rfl, rfl, rfl, ?_, ?_⟩ <;>
          simp only [Env.brokerErr, Env.engineErr, Env.node, natsConfig, redisConfig] at hb hg hr <;>
          simp [mainStartup, hb, hg, hr, Env.eventsToBroker, Env.eventsToEngine, Env.eventsToRun,
            Env.node, Env.newErr, Env.broker, Env.brokerErr, Env.engine, Env.engineErr,
            natsConfig, redisConfig]
      | none =>
        right
        refine ⟨rfl, rfl, rfl, ?_, ?_⟩ <;>
          simp only [Env.brokerErr, Env.engineErr, Env.node, natsConfig, redisConfig] at hb hg hr <;>
          simp [mainStartup, hb, hg, hr, Env.eventsToBroker, Env.eventsToEngine, Env.eventsToRun,
            Env.eventsToServe, Env.node, Env.newErr, Env.broker, Env.brokerErr, Env.engine,
            Env.engineErr, natsConfig, redisConfig]


/-- The handler registered for the websocket endpoint is `authMiddleware`
applied to the meaning of the wrapped handler. -/
theorem serve_authMiddleware {W : Type} (websocket : Ptr → Handler W)
    (fileServer : String → Handler W) (h : HandlerDesc) :
    (HandlerDesc.authMiddleware h).serve websocket fileServer =
      authMiddleware (h.serve websocket fileServer) := rfl

/-- Nothing happens once the process has ended. -/
theorem step_of_exit (s : Sys) (a : Action) (h : s.exit.isSome = true) : step s a = s := by
  simp [step, h]

/-- A run from an ended process changes nothing. -/
theorem run_of_exit (s : Sys) (sched : List Action) (h : s.exit.isSome = true) :
    run s sched = s := by
  induction sched with
  | nil => rfl
  | cons a rest ih => simp only [run, List.foldl_cons, step_of_exit s a h] at ih ⊢; exact ih

theorem run_cons (s : Sys) (a : Action) (sched : List Action) :
    run s (a :: sched) = run (step s a) sched := rfl

/-- A property that holds after start-up and is kept by every step holds in
every run. -/
theorem run_invariant (P : Sys → Prop) (hstep : ∀ s a, s.exit = none → P s → P (step s a))
    (s : Sys) (h0 : P s) (sched : List Action) : P (run s sched) := by
  induction sched generalizing s with
  | nil => exact h0
  | cons a rest ih =>
    rw [run_cons]
    apply ih
    cases hx : s.exit with
    | none => exact hstep s a hx h0
    | some x => rw [step_of_exit s a (by simp [hx])]; exact h0

/-- What one step does to the trace: it appends at most two events, none of
them an event of the sequential part. -/
theorem step_trace (s : Sys) (a : Action) :
    ∃ tl, (step s a).trace = s.trace ++ tl ∧ ∀ e ∈ tl, e.isStartup = false := by
  by_cases hx : s.exit.isSome = true
  · exact ⟨[], by simp [step_of_exit s a hx], by simp⟩
  · rcases s with ⟨trace, node, port, mainPc, srv, sig, notified, sigs, done, hubs, exit⟩
    cases exit with
    | some x => simp at hx
    | none =>
    clear hx
    have hx : (none : Option Exit).isSome = false := rfl
    cases a with
    | main =>
      cases mainPc <;> cases done <;> simp [step, stepMain, Sys.emit, Event.isStartup]
    | server =>
      rcases srv with _ | _ | _ | ⟨_ | e⟩ | _ <;>
        simp [step, stepServer, Sys.emit, Event.isStartup]
    | sigG =>
      cases sig <;> cases sigs <;> cases done <;> simp [step, stepSig, Sys.emit, Event.isStartup]
    | listenReturns err =>
      by_cases h : srv = .inListenAndServe <;> simp [step, h, Sys.emit, Event.isStartup]
    | shutdownReturns err =>
      by_cases h : sig = .inShutdown <;> simp [step, h, Sys.emit, Event.isStartup]
    | signal sg =>
      cases notified <;> cases sigs <;> simp [step, stepSignal, Sys.emit, Event.isStartup]
    | connect client =>
      by_cases h : srv = .inListenAndServe <;> simp [step, stepConnect, h, Sys.emit, Event.isStartup]
    | clientEvent client ev =>
      simp only [step, stepClientEvent, Option.isSome_none, Bool.false_eq_true, if_false]
      split <;> simp [Sys.emit, Event.isStartup]




theorem precedes_concat (p q : Event → Bool) (t : List Event) (e : Event) :
    precedes p q (t ++ [e]) = (precedes p q t && (t.any p || t.any q || !q e)) := by
  induction t with
  | nil => cases hq : q e <;> cases hp : p e <;> simp [precedes, hq, hp]
  | cons a t ih =>
    cases hq : q a <;> cases hp : p a <;> simp [precedes, hq, hp, ih]

theorem mem_of_filterMap_listenResult {t : List Event} {x : Option Err}
    (h : x ∈ t.filterMap Event.listenResult) : Event.listenAndServeReturned x ∈ t := by
  obtain ⟨ev, hev, hx⟩ := List.mem_filterMap.1 h
  cases ev <;> simp [Event.listenResult] at hx
  subst hx
  exact hev

/-- Emitting an event that is no step of the shutdown sequence, no return of
`http.ListenAndServe` and no `log.Fatal` keeps the invariant. -/
theorem Inv.emit {s : Sys} (e : Event) (hx : s.exit = none) (h : Inv s) (hp : e.phase = none)
    (hl : e.listenResult = none) (hf : e.fatalErr = none) : Inv (s.emit e) := by
  obtain ⟨h1, h2, h3, h4, h5, h6, h7, h8, h9, h10⟩ := h
  have hq : ∀ sg, e ≠ Event.sigsReceived sg := by
    intro sg he
    subst he
    simp [Event.phase] at hp
  refine ⟨?_, h2, ?_, ?_, ?_, h6, h7, h8, ?_, ?_⟩
  · simpa [Sys.emit, hl] using h1
  · intro hne
    simpa [Sys.emit, hf] using h3 hne
  · intro hfat
    simp [Sys.emit, hx] at hfat
  · simpa [Sys.emit, hp] using h5
  · intro sg hsg
    simp only [Sys.emit, List.mem_append]
    exact Or.inl (h9 sg hsg)
  · intro sg
    simp [Sys.emit, precedes_concat, h10 sg, hq sg]

theorem Inv.stepMain {s : Sys} (hx : s.exit = none) (h : Inv s) : Inv (stepMain s) := by
  rcases s with ⟨trace, node, port, mainPc, srv, sig, notified, sigs, done, hubs, exit⟩
  simp only at hx
  subst hx
  obtain ⟨h1, h2, h3, h4, h5, h6, h7, h8, h9, h10⟩ := h
  simp only at h1 h2 h3 h4 h5 h6 h7 h8 h9 h10
  have hnf := h3 (by simp)
  cases mainPc <;> cases done <;> cases sig <;> (try simp at h2) <;> (try simp at h6) <;> (try simp at h7) <;> (try simp at h8) <;> (try simp at h9) <;> (try subst h2) <;>
    refine ⟨?_, ?_, ?_, ?_, ?_, ?_, ?_, ?_, ?_, ?_⟩ <;>
    simp [CustomBroker.stepMain, CustomBroker.stepServer, CustomBroker.stepSig,
      CustomBroker.stepSignal, Sys.emit, Event.phase, Event.listenResult, Event.fatalErr,
      progress, srvResults, precedes_concat, lifecyclePhases, h1, hnf, h5, h10] <;>
    (try assumption) <;> (try (simp_all; done))

theorem Inv.stepServer {s : Sys} (hx : s.exit = none) (h : Inv s) : Inv (stepServer s) := by
  rcases s with ⟨trace, node, port, mainPc, srv, sig, notified, sigs, done, hubs, exit⟩
  simp only at hx
  subst hx
  obtain ⟨h1, h2, h3, h4, h5, h6, h7, h8, h9, h10⟩ := h
  simp only at h1 h2 h3 h4 h5 h6 h7 h8 h9 h10
  have hnf := h3 (by simp)
  rcases srv with _ | _ | _ | ⟨_ | e⟩ | _ <;> (try simp at h2) <;> (try simp at h6) <;> (try simp at h7) <;> (try simp at h8) <;> (try simp at h9) <;> (try subst h2) <;>
    refine ⟨?_, ?_, ?_, ?_, ?_, ?_, ?_, ?_, ?_, ?_⟩ <;>
    simp [CustomBroker.stepMain, CustomBroker.stepServer, CustomBroker.stepSig,
      CustomBroker.stepSignal, Sys.emit, Event.phase, Event.listenResult, Event.fatalErr,
      progress, srvResults, precedes_concat, lifecyclePhases, h1, hnf, h5, h10] <;>
    (try assumption) <;> (try (simp_all; done))
  exact ⟨.listenAndServeReturned (some e),
    Or.inl (mem_of_filterMap_listenResult (by rw [h1]; simp [srvResults])), rfl⟩

theorem Inv.stepSig {s : Sys} (hx : s.exit = none) (h : Inv s) : Inv (stepSig s) := by
  rcases s with ⟨trace, node, port, mainPc, srv, sig, notified, sigs, done, hubs, exit⟩
  simp only at hx
  subst hx
  obtain ⟨h1, h2, h3, h4, h5, h6, h7, h8, h9, h10⟩ := h
  simp only at h1 h2 h3 h4 h5 h6 h7 h8 h9 h10
  have hnf := h3 (by simp)
  cases sig <;> cases sigs <;> cases mainPc <;> cases done <;> (try simp at h2) <;> (try simp at h6) <;> (try simp at h7) <;> (try simp at h8) <;> (try simp at h9) <;> (try subst h2) <;>
    refine ⟨?_, ?_, ?_, ?_, ?_, ?_, ?_, ?_, ?_, ?_⟩ <;>
    simp [CustomBroker.stepMain, CustomBroker.stepServer, CustomBroker.stepSig,
      CustomBroker.stepSignal, Sys.emit, Event.phase, Event.listenResult, Event.fatalErr,
      progress, srvResults, precedes_concat, lifecyclePhases, h1, hnf, h5, h10] <;>
    (try assumption) <;> (try (simp_all; done))
  all_goals
    intro sg
    rw [or_iff_not_imp_right]
    intro hsg
    simp only [not_not] at hsg
    subst hsg
    exact Or.inl h9.1

theorem Inv.stepSignal {s : Sys} (sg : Signal) (hx : s.exit = none) (h : Inv s) :
    Inv (stepSignal s sg) := by
  rcases s with ⟨trace, node, port, mainPc, srv, sig, notified, sigs, done, hubs, exit⟩
  simp only at hx
  subst hx
  obtain ⟨h1, h2, h3, h4, h5, h6, h7, h8, h9, h10⟩ := h
  simp only at h1 h2 h3 h4 h5 h6 h7 h8 h9 h10
  have hnf := h3 (by simp)
  cases notified <;> cases sigs <;> (try simp at h2) <;> (try simp at h6) <;> (try simp at h7) <;> (try simp at h8) <;> (try simp at h9) <;> (try subst h2) <;>
    refine ⟨?_, ?_, ?_, ?_, ?_, ?_, ?_, ?_, ?_, ?_⟩ <;>
    simp [CustomBroker.stepMain, CustomBroker.stepServer, CustomBroker.stepSig,
      CustomBroker.stepSignal, Sys.emit, Event.phase, Event.listenResult, Event.fatalErr,
      progress, srvResults, precedes_concat, lifecyclePhases, h1, hnf, h5, h10] <;>
    (try assumption) <;> (try (simp_all; done))

theorem Inv.listenReturns {s : Sys} (err : Option Err) (hx : s.exit = none) (h : Inv s)
    (hs : s.srv = .inListenAndServe) :
    Inv { s.emit (.listenAndServeReturned err) with srv := .returned err } := by
  rcases s with ⟨trace, node, port, mainPc, srv, sig, notified, sigs, done, hubs, exit⟩
  simp only at hx
  subst hx
  obtain ⟨h1, h2, h3, h4, h5, h6, h7, h8, h9, h10⟩ := h
  simp only at h1 h2 h3 h4 h5 h6 h7 h8 h9 h10
  have hnf := h3 (by simp)
  simp only at hs
  subst hs
  (try simp at h2) <;> (try simp at h6) <;> (try simp at h7) <;> (try simp at h8) <;> (try simp at h9) <;>
    refine ⟨?_, ?_, ?_, ?_, ?_, ?_, ?_, ?_, ?_, ?_⟩ <;>
    simp [CustomBroker.stepMain, CustomBroker.stepServer, CustomBroker.stepSig,
      CustomBroker.stepSignal, Sys.emit, Event.phase, Event.listenResult, Event.fatalErr,
      progress, srvResults, precedes_concat, lifecyclePhases, h1, hnf, h5, h10] <;>
    (try assumption) <;> (try (simp_all; done))

theorem Inv.shutdownReturns {s : Sys} (err : Option Err) (hx : s.exit = none) (h : Inv s)
    (hs : s.sig = .inShutdown) :
    Inv { s.emit (.shutdownReturned err) with sig := .L47 } := by
  rcases s with ⟨trace, node, port, mainPc, srv, sig, notified, sigs, done, hubs, exit⟩
  simp only at hx
  subst hx
  obtain ⟨h1, h2, h3, h4, h5, h6, h7, h8, h9, h10⟩ := h
  simp only at h1 h2 h3 h4 h5 h6 h7 h8 h9 h10
  have hnf := h3 (by simp)
  simp only at hs
  subst hs
  cases mainPc <;> (try simp at h2) <;> (try simp at h6) <;> (try simp at h7) <;> (try simp at h8) <;> (try simp at h9) <;> (try subst h2) <;>
    refine ⟨?_, ?_, ?_, ?_, ?_, ?_, ?_, ?_, ?_, ?_⟩ <;>
    simp [CustomBroker.stepMain, CustomBroker.stepServer, CustomBroker.stepSig,
      CustomBroker.stepSignal, Sys.emit, Event.phase, Event.listenResult, Event.fatalErr,
      progress, srvResults, precedes_concat, lifecyclePhases, h1, hnf, h5, h10] <;>
    (try assumption) <;> (try (simp_all; done))

theorem Inv.preserved {s : Sys} (a : Action) (hx : s.exit = none) (h : Inv s) :
    Inv (CustomBroker.step s a) := by
  cases a with
  | main => simpa [CustomBroker.step, hx] using h.stepMain hx
  | server => simpa [CustomBroker.step, hx] using h.stepServer hx
  | sigG => simpa [CustomBroker.step, hx] using h.stepSig hx
  | signal sg => simpa [CustomBroker.step, hx] using h.stepSignal sg hx
  | listenReturns err =>
    simp only [CustomBroker.step, hx, Option.isSome_none, Bool.false_eq_true, if_false]
    split
    · next hs => exact h.listenReturns err hx hs
    · exact h
  | shutdownReturns err =>
    simp only [CustomBroker.step, hx, Option.isSome_none, Bool.false_eq_true, if_false]
    split
    · next hs => exact h.shutdownReturns err hx hs
    · exact h
  | connect client =>
    simp only [CustomBroker.step, hx, stepConnect, Option.isSome_none, Bool.false_eq_true,
      if_false]
    split
    · have h2 := Inv.emit (.logPrintf (clientConnected client {}).2) hx h rfl rfl rfl
      exact ⟨h2.1, h2.2, h2.3, h2.4, h2.5, h2.6, h2.7, h2.8, h2.9, h2.10⟩
    · exact h
  | clientEvent client ev =>
    simp only [CustomBroker.step, hx, stepClientEvent, Option.isSome_none, Bool.false_eq_true,
      if_false]
    split
    · exact h
    · exact Inv.emit _ (show _ = none from hx) (Inv.emit _ hx h rfl rfl rfl) rfl rfl rfl


/-! ## Lemmas on whole runs -/

/-- The node of a state never changes. -/
theorem step_node (s : Sys) (a : Action) : (step s a).node = s.node := by
  by_cases hx : s.exit.isSome = true
  · rw [step_of_exit s a hx]
  · rcases s with ⟨trace, node, port, mainPc, srv, sig, notified, sigs, done, hubs, exit⟩
    cases exit with
    | some x => simp at hx
    | none =>
    cases a with
    | main => cases mainPc <;> cases done <;> simp [step, stepMain, Sys.emit]
    | server =>
      rcases srv with _ | _ | _ | ⟨_ | e⟩ | _ <;> simp [step, stepServer, Sys.emit]
    | sigG => cases sig <;> cases sigs <;> cases done <;> simp [step, stepSig, Sys.emit]
    | listenReturns err => cases srv <;> simp [step, Sys.emit]
    | shutdownReturns err => cases sig <;> simp [step, Sys.emit]
    | signal sg => cases notified <;> cases sigs <;> simp [step, stepSignal, Sys.emit]
    | connect client => cases srv <;> simp [step, stepConnect, Sys.emit]
    | clientEvent client ev =>
      simp only [step, stepClientEvent, Option.isSome_none, Bool.false_eq_true, if_false]
      split <;> simp [Sys.emit]

theorem run_node (s : Sys) (sched : List Action) : (run s sched).node = s.node := by
  induction sched generalizing s with
  | nil => rfl
  | cons a rest ih => rw [run_cons, ih, step_node]

/-- A run appends to the trace only events that are not of the sequential part. -/
theorem run_trace (s : Sys) (sched : List Action) :
    ∃ tl, (run s sched).trace = s.trace ++ tl ∧ ∀ e ∈ tl, e.isStartup = false := by
  induction sched generalizing s with
  | nil => exact ⟨[], by simp [run], by simp⟩
  | cons a rest ih =>
    obtain ⟨t1, h1, h1s⟩ := step_trace s a
    obtain ⟨t2, h2, h2s⟩ := ih (step s a)
    refine ⟨t1 ++ t2, ?_, ?_⟩
    · rw [run_cons, h2, h1, List.append_assoc]
    · intro e he
      rcases List.mem_append.1 he with h | h
      · exact h1s e h
      · exact h2s e h

/-- The invariant holds when the sequential part has ended. -/
theorem Inv.afterStartup (env : Env) : Inv (afterStartup (mainStartup env)) := by
  rcases mainStartup_cases env with ⟨e, hb, ht, ho⟩ | ⟨e, hb, hg, ht, ho⟩ |
      ⟨e, hb, hg, hr, ht, ho⟩ | ⟨hb, hg, hr, ht, ho⟩ <;>
    refine ⟨?_, ?_, ?_, ?_, ?_, ?_, ?_, ?_, ?_, ?_⟩ <;>
    simp [CustomBroker.afterStartup, ho, ht, Env.eventsToBroker, Env.eventsToEngine,
      Env.eventsToRun, Env.eventsToServe, Event.listenResult, Event.fatalErr, Event.phase,
      Event.failure, srvResults, progress, precedes, *]

/-- The invariant holds in every state of every run. -/
theorem Inv.exec (env : Env) (sched : List Action) : Inv (exec env sched) :=
  run_invariant Inv (fun _ a hx h => h.preserved a hx) _ (Inv.afterStartup env) sched

/-- A run that ended in the sequential part is that part alone. -/
theorem exec_of_fatal (env : Env) (sched : List Action) (e : Err)
    (ho : (mainStartup env).outcome = .fatal e) :
    exec env sched = afterStartup (mainStartup env) := by
  apply run_of_exit
  simp [afterStartup, ho]

/-- The trace of a run: the sequential part, then events of the tail. -/
theorem exec_trace (env : Env) (sched : List Action) :
    ∃ tl, (exec env sched).trace = (mainStartup env).trace ++ tl ∧
      (∀ e ∈ tl, e.isStartup = false) ∧
      (∀ e, (mainStartup env).outcome = .fatal e → tl = []) := by
  obtain ⟨tl, h, hs⟩ := run_trace (afterStartup (mainStartup env)) sched
  have h0 : (afterStartup (mainStartup env)).trace = (mainStartup env).trace := by
    unfold afterStartup
    split <;> rfl
  refine ⟨tl, by rw [← h0]; exact h, hs, ?_⟩
  intro e ho
  have h2 := exec_of_fatal env sched e ho
  unfold CustomBroker.exec at h2
  rw [h2] at h
  simpa using h

theorem isStartup_of_isSetter {e : Event} (h : e.isSetter = true) : e.isStartup = true := by
  cases e <;> simp [Event.isSetter] at h <;> rfl

theorem isStartup_of_isCentrifugeNew {e : Event} (h : e.isCentrifugeNew = true) :
    e.isStartup = true := by
  cases e <;> simp [Event.isCentrifugeNew] at h <;> rfl

/-- No event of the tail of a run sets a back-end. -/
theorem filter_isSetter_tail {tl : List Event} (h : ∀ e ∈ tl, e.isStartup = false) :
    tl.filter Event.isSetter = [] := by
  rw [List.filter_eq_nil_iff]
  intro e he hs
  have := isStartup_of_isSetter hs
  rw [h e he] at this
  exact Bool.noConfusion this

/-- No event of the tail of a run is a call of `centrifuge.New`. -/
theorem filter_isCentrifugeNew_tail {tl : List Event} (h : ∀ e ∈ tl, e.isStartup = false) :
    tl.filter Event.isCentrifugeNew = [] := by
  rw [List.filter_eq_nil_iff]
  intro e he hs
  have := isStartup_of_isCentrifugeNew hs
  rw [h e he] at this
  exact Bool.noConfusion this

/-- The calls of `centrifuge.New` in the sequential part: one, with the config
of lines 55-71. -/
theorem mainStartup_filter_new (env : Env) :
    (mainStartup env).trace.filter Event.isCentrifugeNew =
      [.centrifugeNew (mainConfig env) env.node env.newErr] := by
  rcases mainStartup_cases env with ⟨e, hb, ht, ho⟩ | ⟨e, hb, hg, ht, ho⟩ |
      ⟨e, hb, hg, hr, ht, ho⟩ | ⟨hb, hg, hr, ht, ho⟩ <;>
    simp [ht, Env.eventsToBroker, Env.eventsToEngine, Env.eventsToRun, Env.eventsToServe,
      Event.isCentrifugeNew]

/-- The calls of `centrifuge.New` in a run. -/
theorem exec_filter_new (env : Env) (sched : List Action) :
    (exec env sched).trace.filter Event.isCentrifugeNew =
      [.centrifugeNew (mainConfig env) env.node env.newErr] := by
  obtain ⟨tl, ht, hs, _⟩ := exec_trace env sched
  rw [ht, List.filter_append, filter_isCentrifugeNew_tail hs, mainStartup_filter_new]
  rfl

/-- The final value of the variable `node`. -/
theorem mainStartup_node (env : Env) : (mainStartup env).node = env.node := by
  simp only [mainStartup]
  repeat' split
  all_goals rfl

/-- The final value of the variable `cfg`. -/
theorem mainStartup_cfg (env : Env) : (mainStartup env).cfg = mainConfig env := by
  simp only [mainStartup]
  repeat' split
  all_goals rfl

/-- A config passed to `centrifuge.New` in a run is the config of lines 55-71. -/
theorem config_of_centrifugeNew_mem {env : Env} {sched : List Action} {cfg : Config} {n : Ptr}
    {err : Option Err} (h : Event.centrifugeNew cfg n err ∈ (exec env sched).trace) :
    cfg = mainConfig env := by
  have hm : Event.centrifugeNew cfg n err ∈
      (exec env sched).trace.filter Event.isCentrifugeNew :=
    List.mem_filter.2 ⟨h, rfl⟩
  rw [exec_filter_new] at hm
  simp only [List.mem_singleton, Event.centrifugeNew.injEq] at hm
  exact hm.1

/-- Replacing the value `Shutdown` returns by `nil` changes a step only in the
event that records the value. -/
theorem step_forgetResult (s : Sys) (a : Action) :
    step { s with trace := s.trace.map Event.forgetResult } a.forgetResult =
      { step s a with trace := (step s a).trace.map Event.forgetResult } := by
  rcases s with ⟨trace, node, port, mainPc, srv, sig, notified, sigs, done, hubs, exit⟩
  cases exit with
  | some x => simp [step]
  | none =>
    cases a with
    | main =>
      cases mainPc <;> cases done <;>
        simp [step, stepMain, Sys.emit, Action.forgetResult, Event.forgetResult]
    | server =>
      rcases srv with _ | _ | _ | ⟨_ | e⟩ | _ <;>
        simp [step, stepServer, Sys.emit, Action.forgetResult, Event.forgetResult]
    | sigG =>
      cases sig <;> cases sigs <;> cases done <;>
        simp [step, stepSig, Sys.emit, Action.forgetResult, Event.forgetResult]
    | listenReturns err =>
      cases srv <;> simp [step, Sys.emit, Action.forgetResult, Event.forgetResult]
    | shutdownReturns err =>
      cases sig <;> simp [step, Sys.emit, Action.forgetResult, Event.forgetResult]
    | signal sg =>
      cases notified <;> cases sigs <;>
        simp [step, stepSignal, Sys.emit, Action.forgetResult, Event.forgetResult]
    | connect client =>
      cases srv <;> simp [step, stepConnect, Sys.emit, Action.forgetResult, Event.forgetResult]
    | clientEvent client ev =>
      simp only [step, stepClientEvent, Option.isSome_none, Bool.false_eq_true, if_false,
        Action.forgetResult]
      split <;> simp [Sys.emit, Event.forgetResult]

theorem run_forgetResult (s : Sys) (sched : List Action) :
    run { s with trace := s.trace.map Event.forgetResult } (sched.map Action.forgetResult) =
      { run s sched with trace := (run s sched).trace.map Event.forgetResult } := by
  induction sched generalizing s with
  | nil => rfl
  | cons a rest ih =>
    rw [List.map_cons, run_cons, run_cons, step_forgetResult]
    exact ih (step s a)

/-- The sequential part records no value returned by `Shutdown`. -/
theorem afterStartup_forgetResult (env : Env) :
    { afterStartup (mainStartup env) with
      trace := (afterStartup (mainStartup env)).trace.map Event.forgetResult } =
      afterStartup (mainStartup env) := by
  rcases mainStartup_cases env with ⟨e, hb, ht, ho⟩ | ⟨e, hb, hg, ht, ho⟩ |
      ⟨e, hb, hg, hr, ht, ho⟩ | ⟨hb, hg, hr, ht, ho⟩ <;>
    simp [afterStartup, ho, ht, Env.eventsToBroker, Env.eventsToEngine, Env.eventsToRun,
      Env.eventsToServe, Event.forgetResult]

theorem exec_forgetResult (env : Env) (sched : List Action) :
    exec env (sched.map Action.forgetResult) =
      { exec env sched with trace := (exec env sched).trace.map Event.forgetResult } := by
  unfold exec
  rw [← run_forgetResult, afterStartup_forgetResult]

/-- Splitting a prefix of the shutdown sequence at the return of `waitExitSignal`. -/
theorem split_at_waitReturned {A B : List Phase} {k : Nat} {node : Ptr}
    (h : A ++ Phase.waitReturned :: B = (lifecyclePhases node).take k) :
    A = [.received, .called node .background, .returned, .doneSent] ∧
      (B = [] ∨ B = [.printed "bye!"]) := by
  rcases A with _ | ⟨a1, _ | ⟨a2, _ | ⟨a3, _ | ⟨a4, _ | ⟨a5, _ | ⟨a6, A⟩⟩⟩⟩⟩⟩ <;>
    rcases k with _ | _ | _ | _ | _ | _ | _ | k <;>
    simp [lifecyclePhases] at h <;> simp_all

/-- Splitting a prefix of the shutdown sequence at a `log.Println`. -/
theorem split_at_printed {A B : List Phase} {k : Nat} {node : Ptr} {line : String}
    (h : A ++ Phase.printed line :: B = (lifecyclePhases node).take k) :
    line = "bye!" ∧ Phase.waitReturned ∈ A := by
  rcases A with _ | ⟨a1, _ | ⟨a2, _ | ⟨a3, _ | ⟨a4, _ | ⟨a5, _ | ⟨a6, _ | ⟨a7, A⟩⟩⟩⟩⟩⟩⟩ <;>
    rcases k with _ | _ | _ | _ | _ | _ | _ | k <;>
    simp [lifecyclePhases] at h <;> simp_all

theorem any_of_precedes {p q : Event → Bool} {pre post : List Event} {x : Event}
    (h : precedes p q (pre ++ x :: post) = true) (hq : q x = true) : pre.any p = true := by
  induction pre with
  | nil => simp [precedes, hq] at h
  | cons a t ih =>
    cases hqa : q a <;> cases hpa : p a <;> simp [precedes, hqa, hpa] at h ⊢
    simpa using ih h

theorem eq_waitExitSignalReturned_of_phase {ev : Event} (h : ev.phase = some .waitReturned) :
    ev = .waitExitSignalReturned := by
  cases ev <;> simp [Event.phase] at h
  rfl

/-- In every run the steps of the shutdown sequence taken so far are a prefix
of the sequence, with the node `centrifuge.New` returned. -/
theorem exec_phases (env : Env) (sched : List Action) :
    ∃ k, (exec env sched).trace.filterMap Event.phase =
      (lifecyclePhases (env.New (mainConfig env)).1).take k := by
  have h := (Inv.exec env sched).phases
  rcases mainStartup_cases env with ⟨e, hb, ht, ho⟩ | ⟨e, hb, hg, ht, ho⟩ |
      ⟨e, hb, hg, hr, ht, ho⟩ | ⟨hb, hg, hr, ht, ho⟩
  · refine ⟨0, ?_⟩
    rw [exec_of_fatal env sched e ho]
    simp [afterStartup, ho, ht, Env.eventsToBroker, Event.phase]
  · refine ⟨0, ?_⟩
    rw [exec_of_fatal env sched e ho]
    simp [afterStartup, ho, ht, Env.eventsToBroker, Env.eventsToEngine, Event.phase]
  · refine ⟨0, ?_⟩
    rw [exec_of_fatal env sched e ho]
    simp [afterStartup, ho, ht, Env.eventsToBroker, Env.eventsToEngine, Env.eventsToRun,
      Event.phase]
  · refine ⟨progress (exec env sched).sig (exec env sched).mainPc, ?_⟩
    rw [h]
    have hn : (exec env sched).node = (env.New (mainConfig env)).1 := by
      unfold exec
      rw [run_node]
      simp [afterStartup, ho, mainStartup_node, Env.node]
    rw [hn]

/-! ## Lemmas on the History Log -/

theorem drop_range' (s n m : Nat) : (List.range' s n).drop m = List.range' (s + m) (n - m) := by
  induction m generalizing s n with
  | zero => simp
  | succ m ih =>
    cases n with
    | zero => simp
    | succ n =>
      rw [List.range'_succ, List.drop_succ_cons, ih]
      congr 1 <;> omega

theorem ChannelLog.Tracks.append {l : ChannelLog} {pubs : List (Nat × String)}
    (h : l.Tracks pubs) (p : HistoryPolicy) (payload : String) (now : Nat) :
    (l.append p payload now).1.Tracks (pubs ++ [(pubs.length + 1, payload)]) ∧
      (l.append p payload now).2 = pubs.length + 1 := by
  obtain ⟨h1, h2, h3⟩ := h
  refine ⟨⟨?_, ?_, ?_⟩, ?_⟩
  · simp [ChannelLog.append, h1]
  · rw [List.map_append, h2, List.length_append, List.length_singleton, List.range'_concat]
    simp [Nat.add_comm]
  · have hs1 : (l.append p payload now).1.entries <:+
        l.entries ++ [{ seq := l.top + 1, payload := payload, insertedAt := now }] := by
      simp only [ChannelLog.append, evictAge, evictSize]
      exact (List.dropWhile_suffix _).trans (List.drop_suffix _ _)
    have hs2 := List.IsSuffix.map HistoryEntry.key hs1
    refine hs2.trans ?_
    obtain ⟨t, ht⟩ := h3
    refine ⟨t, ?_⟩
    rw [List.map_append, ← List.append_assoc, ht]
    simp [HistoryEntry.key, h1]
  · simp [ChannelLog.append, h1]

theorem HistoryLog.Append_other (policy : String → HistoryPolicy) (log : HistoryLog)
    (r : AppendRequest) (c : String) (h : (decide (r.channel = c) && r.stored) = false) :
    (log.Append policy r).1 c = log c ∧
      (if r.channel = c then (log.Append policy r).2 else none) = none := by
  unfold HistoryLog.Append
  cases hs : r.stored
  · simp
  · by_cases hc : r.channel = c
    · simp [hs, hc] at h
    · have hc2 : ¬ c = r.channel := fun x => hc x.symm
      simp [hc, hc2]

/-- The publications numbered from `start`. -/
theorem numbered_zip (start : Nat) (payloads : List String) :
    ((List.range' start payloads.length).zip payloads).map Prod.fst =
      List.range' start payloads.length := by
  rw [List.map_fst_zip]
  simp

/-- Appends to the History Log, seen from one channel: its log tracks the
publications extended by the successful appends to it, which get the next
sequence numbers in order. -/
theorem HistoryLog.appendAll_tracks (policy : String → HistoryPolicy) (c : String)
    (reqs : List AppendRequest) (log : HistoryLog) (pubs : List (Nat × String))
    (h : (log c).Tracks pubs) :
    ((log.appendAll policy reqs).1 c).Tracks
      (pubs ++ (List.range' (pubs.length + 1) (requestsOf c reqs).length).zip
        ((requestsOf c reqs).map AppendRequest.payload)) ∧
    seqsOf c (log.appendAll policy reqs).2 =
      List.range' (pubs.length + 1) (requestsOf c reqs).length := by
  induction reqs generalizing log pubs with
  | nil => simpa [HistoryLog.appendAll, requestsOf, seqsOf] using h
  | cons r rest ih =>
    cases hr : (decide (r.channel = c) && r.stored)
    · obtain ⟨h1, h2⟩ := HistoryLog.Append_other policy log r c hr
      have := ih (log.Append policy r).1 pubs (by rw [h1]; exact h)
      have hreq : requestsOf c (r :: rest) = requestsOf c rest := by
        simp [requestsOf, List.filter_cons, hr]
      rw [hreq]
      refine ⟨this.1, ?_⟩
      have hseq : seqsOf c (log.appendAll policy (r :: rest)).2 =
          seqsOf c ((log.Append policy r).1.appendAll policy rest).2 := by
        simp only [HistoryLog.appendAll, seqsOf, List.filterMap_cons, h2]
      rw [hseq]
      exact this.2
    · simp only [Bool.and_eq_true, decide_eq_true_eq] at hr
      obtain ⟨hc, hs⟩ := hr
      have happ : (log.Append policy r).1 c = ((log c).append (policy c) r.payload r.now).1 ∧
          (log.Append policy r).2 = some ((log c).append (policy c) r.payload r.now).2 := by
        subst hc
        simp [HistoryLog.Append, hs]
      obtain ⟨ht, hn⟩ := h.append (policy c) r.payload r.now
      have := ih (log.Append policy r).1 (pubs ++ [(pubs.length + 1, r.payload)])
        (by rw [happ.1]; exact ht)
      have hreq : requestsOf c (r :: rest) = r :: requestsOf c rest := by
        simp [requestsOf, List.filter_cons, hc, hs]
      rw [hreq]
      constructor
      · have h1 := this.1
        simp only [List.length_append, List.length_singleton, List.append_assoc] at h1
        simpa [List.range'_succ, HistoryLog.appendAll] using h1
      · have h2 := this.2
        simp only [List.length_append, List.length_singleton] at h2
        simp only [HistoryLog.appendAll, seqsOf, List.filterMap_cons, hc, if_true, happ.2, hn,
          List.length_cons, List.range'_succ]
        simp only [seqsOf] at h2
        rw [h2]

/-- The empty History Log tracks no publication on any channel. -/
theorem ChannelLog.Tracks.init (c : String) : (HistoryLog.empty c).Tracks [] :=
  ⟨rfl, rfl, by simp [HistoryLog.empty]⟩

/-- The sequence numbers of the scenario of section 8. -/
theorem scenario_sequence_numbers :
    seqsOf "chat:room" (HistoryLog.empty.appendAll scenarioPolicy scenarioRequests).2 =
      [1, 2, 3, 4] := by
  decide

/-- The backlog of the scenario of section 8 for a last known sequence of 1. -/
theorem scenario_backlog :
    subscribeRecover scenarioPolicy
        (HistoryLog.empty.appendAll scenarioPolicy scenarioRequests).1 "chat:room" 1 =
      some ([⟨2, "b", 0⟩, ⟨3, "c", 0⟩, ⟨4, "d", 0⟩], true) := by
  decide

/-- Filtering numbered publications by sequence number drops a prefix. -/
theorem filter_since_eq_drop (since : Nat) (xs : List (Nat × String)) (s : Nat)
    (h : xs.map Prod.fst = List.range' s xs.length) :
    xs.filter (fun x => decide (since < x.1)) = xs.drop (since + 1 - s) := by
  induction xs generalizing s with
  | nil => simp
  | cons x xs ih =>
    simp only [List.map_cons, List.length_cons, List.range'_succ, List.cons.injEq] at h
    obtain ⟨hx, hxs⟩ := h
    have := ih (s + 1) hxs
    by_cases hlt : since < x.1
    · have h0 : since + 1 - s = 0 := by omega
      have h1 : since + 1 - (s + 1) = 0 := by omega
      rw [List.filter_cons_of_pos (by simpa using hlt), this, h0, h1]
      simp
    · have h0 : since + 1 - s = (since + 1 - (s + 1)) + 1 := by omega
      rw [List.filter_cons_of_neg (by simpa using hlt), this, h0, List.drop_succ_cons]

/-- The retained entries are the publications from some point on. -/
theorem ChannelLog.Tracks.entries_eq {l : ChannelLog} {pubs : List (Nat × String)}
    (h : l.Tracks pubs) :
    l.entries.map HistoryEntry.key = pubs.drop (pubs.length - l.entries.length) := by
  have := List.suffix_iff_eq_drop.1 h.retained
  simpa using this

/-- The sequence number of a retained entry is one that was assigned. -/
theorem ChannelLog.Tracks.seq_bounds {l : ChannelLog} {pubs : List (Nat × String)}
    (h : l.Tracks pubs) {e : HistoryEntry} (he : e ∈ l.entries) :
    1 ≤ e.seq ∧ e.seq ≤ l.top := by
  have h1 : e.key ∈ pubs := h.retained.subset (List.mem_map_of_mem _ he)
  have h2 : e.seq ∈ pubs.map Prod.fst := List.mem_map.2 ⟨e.key, h1, rfl⟩
  rw [h.numbered, List.mem_range'_1] at h2
  rw [h.top_eq]
  omega

/-- The oldest retained entry has the sequence number after the evicted ones. -/
theorem ChannelLog.Tracks.oldest_seq {l : ChannelLog} {pubs : List (Nat × String)}
    (h : l.Tracks pubs) {oldest : HistoryEntry} (ho : l.entries.head? = some oldest) :
    oldest.seq = 1 + (pubs.length - l.entries.length) := by
  have h1 := congrArg (List.map Prod.fst) h.entries_eq
  rw [List.map_drop, h.numbered, drop_range'] at h1
  cases hes : l.entries with
  | nil => simp [hes] at ho
  | cons a rest =>
    simp only [hes, List.head?_cons, Option.some.injEq] at ho
    subst ho
    rw [hes] at h1
    simp only [List.map_cons, List.map_map] at h1
    have h2 := (List.range'_eq_cons_iff.1 h1.symm).1
    simpa [HistoryEntry.key, hes] using h2.symm

/-- What `Recover` gives on a log that tracks its publications. -/
theorem ChannelLog.Tracks.recover {l : ChannelLog} {pubs : List (Nat × String)}
    (h : l.Tracks pubs) (p : HistoryPolicy) (hen : p.historyEnabled = true) :
    (l.entries.length = pubs.length → (l.recover p 0).1.map HistoryEntry.key = pubs) ∧
    l.recover p pubs.length = ([], true) ∧
    (l.recover p (pubs.length + 100)).2 = false ∧
    (∀ oldest since, l.entries.head? = some oldest → oldest.seq ≤ since + 1 →
      since ≤ pubs.length →
      (l.recover p since).2 = true ∧
        (l.recover p since).1.map HistoryEntry.key = pubs.drop since) := by
  refine ⟨?_, ?_, ?_, ?_⟩
  · intro hlen
    have hall : l.entries.filter (fun e => decide (0 < e.seq)) = l.entries := by
      rw [List.filter_eq_self]
      intro e he
      have := (h.seq_bounds he).1
      simpa using this
    simp only [ChannelLog.recover, hall]
    exact h.retained.eq_of_length (by simpa using hlen)
  · have hnone : l.entries.filter (fun e => decide (pubs.length < e.seq)) = [] := by
      rw [List.filter_eq_nil_iff]
      intro e he
      have := (h.seq_bounds he).2
      rw [h.top_eq] at this
      simpa using this
    simp only [ChannelLog.recover, hnone, hen, Bool.true_and, Prod.mk.injEq, true_and,
      Bool.and_eq_true, decide_eq_true_eq]
    refine ⟨?_, by rw [h.top_eq]⟩
    cases ho : l.entries.head? with
    | none => simp [h.top_eq]
    | some oldest =>
      have hmem : oldest ∈ l.entries := List.mem_of_mem_head? ho
      have := (h.seq_bounds hmem).2
      rw [h.top_eq] at this
      simp only [decide_eq_true_eq]
      omega
  · simp [ChannelLog.recover, h.top_eq]
  · intro oldest since ho hle hk
    have hseq := h.oldest_seq ho
    constructor
    · simp [ChannelLog.recover, hen, ho, hle, h.top_eq, hk]
    · have hkey : (l.recover p since).1.map HistoryEntry.key =
          (l.entries.map HistoryEntry.key).filter (fun x => decide (since < x.1)) := by
        simp only [ChannelLog.recover, List.filter_map]
        rfl
      have hnum : (pubs.drop (pubs.length - l.entries.length)).map Prod.fst =
          List.range' (1 + (pubs.length - l.entries.length))
            (pubs.drop (pubs.length - l.entries.length)).length := by
        rw [List.map_drop, h.numbered, drop_range', List.length_drop]
      rw [hkey, h.entries_eq, filter_since_eq_drop since _ _ hnum, List.drop_drop]
      congr 1
      omega

/-! ## The claims -/

/-- C1 (as stated, refuted): with a broker and a store that were both built
without error, a failing `node.Run` still ends the process through `log.Fatal`. -/
theorem C1_counterexample :
    (exec envRunFails []).exit = some .fatal ∧
    (exec envRunFails []).trace.getLast? = some (.logFatal "run: broker unreachable") ∧
    ∀ ev ∈ (exec envRunFails []).trace, ev.initFailure = none := by
  decide

/-- C1 (amended): in every run, the process ends through `log.Fatal` only when
one of `natsbroker.New`, `centrifuge.NewRedisEngine`, `node.Run` or
`http.ListenAndServe` has returned an error, and `log.Fatal` is then called
with that error as the last event of the run. -/
theorem C1_fatal_only_after_failed_call (env : Env) (sched : List Action)
    (h : (exec env sched).exit = some .fatal) :
    ∃ e, (exec env sched).trace.getLast? = some (.logFatal e) ∧
      ∃ ev ∈ (exec env sched).trace, ev.failure = some e := by
  obtain ⟨e, hl, _, hev, _⟩ := (Inv.exec env sched).fatal h
  exact ⟨e, hl, hev⟩

/-- C1 (amended) at a run in which `http.ListenAndServe` fails to bind. -/
theorem C1_fatal_only_after_failed_call_witness :
    ∃ e, (exec envOk schedListenFails).trace.getLast? = some (.logFatal e) ∧
      ∃ ev ∈ (exec envOk schedListenFails).trace, ev.failure = some e :=
  C1_fatal_only_after_failed_call envOk schedListenFails (by decide)


/-- C2: in every run that reaches `node.Run`, `SetBroker`, `SetHistoryManager`
and `SetPresenceManager` have each been called exactly once before it, none of
them is called after it, the history manager and the presence manager are the
same engine value, and the broker is a value different from that engine. -/
theorem C2_backends_set_once_before_run (env : Env) (sched : List Action) (n : Ptr)
    (r : Option Err) (h : Event.nodeRun n r ∈ (exec env sched).trace) :
    ∃ pre post b g, (exec env sched).trace = pre ++ Event.nodeRun n r :: post ∧
      pre.filter Event.isSetter =
        [.setBroker n (.natsBroker b), .setHistoryManager n (.redisEngine g),
         .setPresenceManager n (.redisEngine g)] ∧
      post.filter Event.isSetter = [] ∧
      Component.natsBroker b ≠ Component.redisEngine g := by
  obtain ⟨tl, ht, hs, hf⟩ := exec_trace env sched
  have htl : Event.nodeRun n r ∉ tl := fun hm => by
    have := hs _ hm
    simp [Event.isStartup] at this
  rw [ht] at h ⊢
  rcases mainStartup_cases env with ⟨e, hb, ht2, ho⟩ | ⟨e, hb, hg, ht2, ho⟩ |
      ⟨e, hb, hg, hr, ht2, ho⟩ | ⟨hb, hg, hr, ht2, ho⟩
  · have := hf e ho
    subst this
    simp [ht2, Env.eventsToBroker] at h
  · have := hf e ho
    subst this
    simp [ht2, Env.eventsToBroker, Env.eventsToEngine] at h
  · have := hf e ho
    subst this
    simp [ht2, Env.eventsToBroker, Env.eventsToEngine, Env.eventsToRun] at h
    obtain ⟨rfl, rfl⟩ := h
    refine ⟨env.eventsToBroker ++ env.eventsToEngine ++
      [.setHistoryManager env.node (.redisEngine env.engine),
       .setPresenceManager env.node (.redisEngine env.engine)], [.logFatal e],
      env.broker, env.engine, ?_, ?_, ?_, ?_⟩
    · simp [ht2, Env.eventsToRun]
    · simp [Env.eventsToBroker, Env.eventsToEngine, Event.isSetter]
    · simp [Event.isSetter]
    · simp
  · simp [ht2, Env.eventsToBroker, Env.eventsToEngine, Env.eventsToRun, Env.eventsToServe,
      htl] at h
    obtain ⟨rfl, rfl⟩ := h
    refine ⟨env.eventsToBroker ++ env.eventsToEngine ++
      [.setHistoryManager env.node (.redisEngine env.engine),
       .setPresenceManager env.node (.redisEngine env.engine)], env.eventsToServe ++ tl,
      env.broker, env.engine, ?_, ?_, ?_, ?_⟩
    · simp [ht2, Env.eventsToRun]
    · simp [Env.eventsToBroker, Env.eventsToEngine, Event.isSetter]
    · simp [Env.eventsToServe, Event.isSetter, filter_isSetter_tail hs]
    · simp

/-- C2 at a run that starts serving and shuts down on SIGINT. -/
theorem C2_backends_set_once_before_run_witness :
    ∃ pre post b g, (exec envOk schedShutdown).trace = pre ++ Event.nodeRun (some 1) none :: post ∧
      pre.filter Event.isSetter =
        [.setBroker (some 1) (.natsBroker b), .setHistoryManager (some 1) (.redisEngine g),
         .setPresenceManager (some 1) (.redisEngine g)] ∧
      post.filter Event.isSetter = [] ∧
      Component.natsBroker b ≠ Component.redisEngine g :=
  C2_backends_set_once_before_run envOk schedShutdown (some 1) none (by decide)


/-- C4: every namespace of the config that `main` passes to `centrifuge.New`
and that has `HistoryRecover` enabled also has history enabled, that is
`HistorySize > 0` and `HistoryLifetime > 0`. -/
theorem C4_recovery_requires_history (env : Env) (sched : List Action) (cfg : Config) (n : Ptr)
    (err : Option Err) (h : Event.centrifugeNew cfg n err ∈ (exec env sched).trace)
    (ns : ChannelNamespace) (hns : ns ∈ cfg.Namespaces)
    (hrec : ns.Options.HistoryRecover = true) :
    0 < ns.Options.HistorySize ∧ 0 < ns.Options.HistoryLifetime := by
  have hc := config_of_centrifugeNew_mem h
  subst hc
  simp only [mainConfig, List.mem_singleton] at hns
  subst hns
  exact ⟨by decide, by decide⟩

/-- C4 at the "chat" namespace of a run in which every call succeeds. -/
theorem C4_recovery_requires_history_witness :
    (0 : Int) < 1000 ∧ (0 : Int) < 60 :=
  C4_recovery_requires_history envOk [] (mainConfig envOk) (some 1) none (by decide)
    ⟨"chat", ⟨true, true, true, 1000, 60, true⟩⟩ (by decide) rfl

/-- C5: in every run `main` calls `centrifuge.New` exactly once, with a config
that equals `centrifuge.DefaultConfig` in every field other than `LogLevel`
(`LogLevelDebug`), `LogHandler` (`handleLog`) and `Namespaces` (the one policy
"chat" with Publish, JoinLeave, Presence and HistoryRecover true,
HistoryLifetime 60 and HistorySize 1000); the variable `cfg` still holds that
value when the sequential part of `main` ends. -/
theorem C5_config_loaded_once (env : Env) (sched : List Action) :
    (exec env sched).trace.filter Event.isCentrifugeNew =
      [.centrifugeNew
        { LogLevel := env.LogLevelDebug
          LogHandler := some .handleLog
          Namespaces := [
            { Name := "chat"
              Options := {
                Publish := true, JoinLeave := true, Presence := true, HistoryRecover := true,
                HistoryLifetime := 60, HistorySize := 1000 } }]
          others := env.DefaultConfig.others }
        (env.New (mainConfig env)).1 (env.New (mainConfig env)).2] ∧
    (mainStartup env).cfg =
      { LogLevel := env.LogLevelDebug
        LogHandler := some .handleLog
        Namespaces := [
          { Name := "chat"
            Options := {
              Publish := true, JoinLeave := true, Presence := true, HistoryRecover := true,
              HistoryLifetime := 60, HistorySize := 1000 } }]
        others := env.DefaultConfig.others } := by
  refine ⟨?_, ?_⟩
  · rw [exec_filter_new]
    rfl
  · rw [mainStartup_cfg]
    rfl

/-- C10: in every run, when `waitExitSignal` returns (the main goroutine has
received from `done`), the events before it contain, in this order and each
exactly once, the receipt of a signal from `sigs`, the call of `Shutdown` on
the node with the background context (no deadline), the return of `Shutdown`
and the send on `done`, and after it `Shutdown` is not called again; a signal
received from `sigs` was delivered before; `main` prints only "bye!", and only
after `waitExitSignal` has returned; and the value `Shutdown` returns changes
nothing in the run but the event recording it. -/
theorem C10_wait_returns_after_shutdown (env : Env) (sched : List Action) :
    (∀ pre post, (exec env sched).trace = pre ++ Event.waitExitSignalReturned :: post →
      pre.filterMap Event.phase =
        [.received, .called (env.New (mainConfig env)).1 .background, .returned, .doneSent] ∧
      ShutdownCtx.background.hasDeadline = false ∧
      (post.filterMap Event.phase = [] ∨ post.filterMap Event.phase = [.printed "bye!"])) ∧
    (∀ sg pre post, (exec env sched).trace = pre ++ Event.sigsReceived sg :: post →
      Event.signalDelivered sg ∈ pre) ∧
    (∀ line pre post, (exec env sched).trace = pre ++ Event.logPrintln line :: post →
      line = "bye!" ∧ Event.waitExitSignalReturned ∈ pre) ∧
    exec env (sched.map Action.forgetResult) =
      { exec env sched with trace := (exec env sched).trace.map Event.forgetResult } := by
  obtain ⟨k, hk⟩ := exec_phases env sched
  refine ⟨?_, ?_, ?_, exec_forgetResult env sched⟩
  · intro pre post ht
    rw [ht, List.filterMap_append, List.filterMap_cons] at hk
    simp only [Event.phase] at hk
    obtain ⟨h1, h2⟩ := split_at_waitReturned hk
    exact ⟨h1, rfl, h2⟩
  · intro sg pre post ht
    have hp := (Inv.exec env sched).recv_after sg
    rw [ht] at hp
    have := any_of_precedes hp (by simp)
    simpa using this
  · intro line pre post ht
    rw [ht, List.filterMap_append, List.filterMap_cons] at hk
    simp only [Event.phase] at hk
    obtain ⟨h1, h2⟩ := split_at_printed hk
    refine ⟨h1, ?_⟩
    obtain ⟨ev, hev, hph⟩ := List.mem_filterMap.1 h2
    rw [eq_waitExitSignalReturned_of_phase hph] at hev
    exact hev

/-- C10 at a run that shuts down on SIGINT: the 18 events before the return
of `waitExitSignal` hold the shutdown sequence. -/
theorem C10_wait_returns_after_shutdown_witness :
    ((exec envOk schedShutdown).trace.take 18).filterMap Event.phase =
        [.received, .called (some 1) .background, .returned, .doneSent] ∧
      ShutdownCtx.background.hasDeadline = false ∧
      (((exec envOk schedShutdown).trace.drop 19).filterMap Event.phase = [] ∨
        ((exec envOk schedShutdown).trace.drop 19).filterMap Event.phase = [.printed "bye!"]) :=
  (C10_wait_returns_after_shutdown envOk schedShutdown).1
    ((exec envOk schedShutdown).trace.take 18) ((exec envOk schedShutdown).trace.drop 19)
    (by decide)

/-- C3: each of the four handlers registered in `main` returns the empty reply
for every client and every event, so the reply does not depend on the channel,
the data or the user id; and once the `ClientConnected` callback has run for a
client, the dispatch of any lifecycle event to the client's hub gives that
empty reply. -/
theorem C3_handlers_return_empty_reply (client : Client) :
    (∀ e, (subscribeHandler client e).2 = ({ fields := [] } : SubscribeReply)) ∧
    (∀ e, (unsubscribeHandler client e).2 = ({ fields := [] } : UnsubscribeReply)) ∧
    (∀ e, (publishHandler client e).2 = ({ fields := [] } : PublishReply)) ∧
    (∀ e, (disconnectHandler client e).2 = ({ fields := [] } : DisconnectReply)) ∧
    (∀ hub0 ev, ∃ line,
      (clientConnected client hub0).1.dispatch ev = some (line,
        match ev with
        | .subscribe _ => .subscribe { fields := [] }
        | .unsubscribe _ => .unsubscribe { fields := [] }
        | .publish _ => .publish { fields := [] }
        | .disconnect _ => .disconnect { fields := [] })) := by
  refine ⟨fun _ => rfl, fun _ => rfl, fun _ => rfl, fun _ => rfl, ?_⟩
  intro hub0 ev
  cases ev <;> exact ⟨_, rfl⟩

/-- C8: for every inner handler, response writer and request, the handler
`authMiddleware` returns calls the inner handler exactly once, with the same
response writer and with the request `r.WithContext(SetCredentials(ctx, c))`,
whose context carries the credentials `UserID: "42"`,
`Info: {"name": "Alexander"}` and which is otherwise unchanged; the
credentials are the same for all requests, and every request reaches the
inner handler. -/
theorem C8_authMiddleware_fixed_credentials (r : Request) :
    ∃ r2 : Request,
      r2 = r.WithContext
        (SetCredentials r.ctx { UserID := "42", Info := "\x7b\"name\": \"Alexander\"\x7d" }) ∧
      GetCredentials r2.ctx =
        some { UserID := "42", Info := "\x7b\"name\": \"Alexander\"\x7d" } ∧
      r2.method = r.method ∧ r2.url = r.url ∧ r2.header = r.header ∧ r2.body = r.body ∧
      (∀ (W : Type) (h : Handler W) (w : W), authMiddleware h w r = h w r2) ∧
      (∀ (log : List Request), authMiddleware (fun w q => w ++ [q]) log r = log ++ [r2]) ∧
      (∀ r3 : Request, ∃ r4 : Request, GetCredentials r4.ctx = GetCredentials r2.ctx ∧
        ∀ (W : Type) (h : Handler W) (w : W), authMiddleware h w r3 = h w r4) := by
  refine ⟨r.WithContext (SetCredentials r.ctx
    { UserID := "42", Info := "\x7b\"name\": \"Alexander\"\x7d" }), rfl, ?_, rfl, rfl, rfl, rfl,
    fun _ _ _ => rfl, fun _ => rfl, ?_⟩
  · simp [GetCredentials, Context.value, SetCredentials, Request.WithContext]
  · intro r3
    refine ⟨r3.WithContext (SetCredentials r3.ctx
      { UserID := "42", Info := "\x7b\"name\": \"Alexander\"\x7d" }), ?_, fun _ _ _ => rfl⟩
    simp [GetCredentials, Context.value, SetCredentials, Request.WithContext]

/-- C6: for every sequence of append requests, in whatever order the requests
for different channels and from different clients are interleaved, the
successful appends to one channel are given exactly the sequence numbers
1, 2, ..., N in order (N their count), without duplicate or gap; and after any
earlier requests, evictions included, numbering goes on from the last number
assigned, so no number is reused. -/
theorem C6_append_sequence_numbers (policy : String → HistoryPolicy) (channel : String)
    (reqs : List AppendRequest) :
    seqsOf channel (HistoryLog.empty.appendAll policy reqs).2 =
      List.range' 1 (requestsOf channel reqs).length ∧
    (seqsOf channel (HistoryLog.empty.appendAll policy reqs).2).Nodup ∧
    ∀ before : List AppendRequest,
      seqsOf channel ((HistoryLog.empty.appendAll policy before).1.appendAll policy reqs).2 =
        List.range' ((requestsOf channel before).length + 1) (requestsOf channel reqs).length := by
  have h0 := ChannelLog.Tracks.init channel
  have h1 := (HistoryLog.appendAll_tracks policy channel reqs HistoryLog.empty [] h0).2
  refine ⟨by simpa using h1, ?_, ?_⟩
  · rw [h1]
    exact List.nodup_range' _ _
  · intro before
    have hb := (HistoryLog.appendAll_tracks policy channel before HistoryLog.empty [] h0).1
    have h2 := (HistoryLog.appendAll_tracks policy channel reqs _ _ hb).2
    simpa using h2

/-- C7: on the History Log reached by any sequence of appends, for a channel
with history enabled and `k` successful appends: when none of the `k` entries
was evicted, `Recover(channel, 0)` returns all `k` publications in ascending
order; `Recover(channel, k)` returns the empty list with `recovered = true`;
`Recover(channel, k+100)` returns `recovered = false`; and when entries were
evicted, a client of a channel with recovery enabled whose last known sequence
is one that was assigned and is at least the oldest retained sequence minus 1
gets `recovered = true` and exactly the later publications in order. -/
theorem C7_recovery_round_trip (policy : String → HistoryPolicy) (channel : String)
    (reqs : List AppendRequest) (hen : (policy channel).historyEnabled = true) :
    (((HistoryLog.empty.appendAll policy reqs).1 channel).entries.length =
        (requestsOf channel reqs).length →
      ((HistoryLog.empty.appendAll policy reqs).1.Recover policy channel 0).1.map
          HistoryEntry.key =
        (List.range' 1 (requestsOf channel reqs).length).zip
          ((requestsOf channel reqs).map AppendRequest.payload)) ∧
    (HistoryLog.empty.appendAll policy reqs).1.Recover policy channel
        (requestsOf channel reqs).length = ([], true) ∧
    ((HistoryLog.empty.appendAll policy reqs).1.Recover policy channel
        ((requestsOf channel reqs).length + 100)).2 = false ∧
    (∀ oldest since,
      ((HistoryLog.empty.appendAll policy reqs).1 channel).entries.head? = some oldest →
      1 < oldest.seq → oldest.seq ≤ since + 1 → since ≤ (requestsOf channel reqs).length →
      (policy channel).recoveryEnabled = true →
      ∃ backlog,
        subscribeRecover policy (HistoryLog.empty.appendAll policy reqs).1 channel since =
          some (backlog, true) ∧
        backlog.map HistoryEntry.key =
          ((List.range' 1 (requestsOf channel reqs).length).zip
            ((requestsOf channel reqs).map AppendRequest.payload)).drop since) := by
  have h0 := ChannelLog.Tracks.init channel
  have ht := (HistoryLog.appendAll_tracks policy channel reqs HistoryLog.empty [] h0).1
  simp only [List.nil_append, List.length_nil, Nat.zero_add] at ht
  have hlen : ((List.range' 1 (requestsOf channel reqs).length).zip
      ((requestsOf channel reqs).map AppendRequest.payload)).length =
      (requestsOf channel reqs).length := by
    simp
  obtain ⟨ha, hb, hc, hd⟩ := ht.recover (policy channel) hen
  rw [hlen] at ha hb hc hd
  refine ⟨ha, hb, hc, ?_⟩
  intro oldest since ho hev hle hk hrec
  obtain ⟨h1, h2⟩ := hd oldest since ho hle hk
  refine ⟨((HistoryLog.empty.appendAll policy reqs).1.Recover policy channel since).1, ?_, h2⟩
  have hpos : 0 < since := by omega
  unfold subscribeRecover
  rw [if_pos ⟨hpos, hrec⟩, ← h1]
  rfl

/-- C7 at the policy of the "chat" namespace (four publications, caught up)
and at the scenario of section 8 (size 3, last known sequence 1). -/
theorem C7_recovery_round_trip_witness :
    ((chatPolicy envOk "chat:room").historyEnabled = true ∧
      (HistoryLog.empty.appendAll (chatPolicy envOk) scenarioRequests).1.Recover
        (chatPolicy envOk) "chat:room" 4 = ([], true)) ∧
    ∃ backlog,
      subscribeRecover scenarioPolicy
          (HistoryLog.empty.appendAll scenarioPolicy scenarioRequests).1 "chat:room" 1 =
        some (backlog, true) ∧
      backlog.map HistoryEntry.key = [(2, "b"), (3, "c"), (4, "d")] :=
  ⟨⟨by decide,
    (C7_recovery_round_trip (chatPolicy envOk) "chat:room" scenarioRequests (by decide)).2.1⟩,
   (C7_recovery_round_trip scenarioPolicy "chat:room" scenarioRequests (by decide)).2.2.2
    ⟨2, "b", 0⟩ 1 (by decide) (by decide) (by decide) (by decide) (by decide)⟩

end CustomBroker
